import Mathlib

/-! OpenGL teaching exercises: a verification development.

Shallow embeddings of the parts of the exercises that carry logic, each in the
namespace of its source file:

* `Lista2Exercicio6` (`src/Exercicios/Lista2/Exercicio6.cpp`): the
  click-to-triangle accumulator, that is the three global vectors `g_pending`,
  `g_vertices`, `g_colors`, the GLFW mouse-button callback that feeds them, the
  per-frame render section of `main` that reads them, and the keyboard
  callback;
* `Lista2Exercicio5` (`src/Exercicios/Lista2/Exercicio5.cpp`): the four
  viewports set in each frame;
* `Lista1Exercicio6` (`src/Exercicios/Lista1/Exercicio6.cpp`): the vertex array
  of the circle and the draw call that reads it;
* `Lista1Exercicio9` (`src/Exercicios/Lista1/Exercicio9.cpp`): the life cycle
  of the vertex-array handles.

The definitions come first, the lemmas and theorems after them.

Conventions of the embedding.

* `F` is the type of `float` values and `D` the type of `double` values.  They
  stay abstract; the float literals of the source (`0.0f`, `1.0f`, ...) are
  written `(0.0 : F)`, `(1.0 : F)` through `OfScientific`, the conversion
  `static_cast<float>` of the accumulator is the parameter `toFloat : D → F`,
  and the arithmetic and library functions of the circle are operations on `F`
  and `D` that are functions and nothing more.
* `std::vector` is a `List`; `push_back`/`emplace_back` append at the end.
* What a callback obtains from its environment is passed in as arguments:
  the cursor position reported by `glfwGetCursorPos` and the three values
  returned by the calls `dist(gen)`.
* OpenGL calls are recorded as a list of calls, in program order.
-/

namespace Lista2Exercicio6

/-! ## Data model -/

/-- The glm type `vec3`: three float components. -/
structure vec3 (F : Type) where
  x : F
  y : F
  z : F
deriving DecidableEq, Repr

/-- The glm type `vec4`, read as a colour: `r`, `g`, `b`, `a`. -/
structure vec4 (F : Type) where
  r : F
  g : F
  b : F
  a : F
deriving DecidableEq, Repr

/-- Value of `GLFW_MOUSE_BUTTON_LEFT` in `GLFW/glfw3.h`. -/
def GLFW_MOUSE_BUTTON_LEFT : Int := 0

/-- Value of `GLFW_MOUSE_BUTTON_RIGHT` in `GLFW/glfw3.h`. -/
def GLFW_MOUSE_BUTTON_RIGHT : Int := 1

/-- Value of `GLFW_RELEASE` in `GLFW/glfw3.h`. -/
def GLFW_RELEASE : Int := 0

/-- Value of `GLFW_PRESS` in `GLFW/glfw3.h`. -/
def GLFW_PRESS : Int := 1

/-- The global state of lines 53-55: the clicked vertices that do not form a
triangle yet, the vertices of all triangles formed, one colour per triangle. -/
structure Accumulator (F : Type) where
  g_pending : List (vec3 F)
  g_vertices : List (vec3 F)
  g_colors : List (vec4 F)
deriving DecidableEq, Repr

/-- The state at program start: the three vectors are default-constructed. -/
def Accumulator.empty {F : Type} : Accumulator F :=
  { g_pending := [], g_vertices := [], g_colors := [] }

/-- The values returned by the three calls `dist(gen)` of line 176, named by the
constructor argument they initialise. -/
structure Draws (F : Type) where
  red : F
  green : F
  blue : F
deriving DecidableEq, Repr

section Callback

variable {D F : Type} [OfScientific F]

/-- The vertex built by `emplace_back(static_cast<float>(xpos),
static_cast<float>(ypos), 0.0f)` (line 163). -/
def pendingVertex (toFloat : D → F) (xpos ypos : D) : vec3 F :=
  { x := toFloat xpos, y := toFloat ypos, z := 0.0 }

/-- The colour built by `vec4 color(dist(gen), dist(gen), dist(gen), 1.0f)`
(line 176). -/
def randomColor (rnd : Draws F) : vec4 F :=
  { r := rnd.red, g := rnd.green, b := rnd.blue, a := 1.0 }

/-- The function `mouse_button_callback` (lines 157-182).  `xpos`, `ypos` are
what `glfwGetCursorPos` writes, `rnd` what the three `dist(gen)` calls return
should the body reach them. -/
def mouse_button_callback (toFloat : D → F) (xpos ypos : D) (rnd : Draws F)
    (button action _mods : Int) (s : Accumulator F) : Accumulator F :=
  if button = GLFW_MOUSE_BUTTON_LEFT ∧ action = GLFW_PRESS then
    let g_pending := s.g_pending ++ [pendingVertex toFloat xpos ypos]
    if h : g_pending.length = 3 then
      let g_vertices := s.g_vertices ++ [g_pending[0]]
      let g_vertices := g_vertices ++ [g_pending[1]]
      let g_vertices := g_vertices ++ [g_pending[2]]
      let color := randomColor rnd
      let g_colors := s.g_colors ++ [color]
      { g_pending := [], g_vertices := g_vertices, g_colors := g_colors }
    else
      { s with g_pending := g_pending }
  else
    s

/-- A click event: a press of the left button, with the cursor position at that
moment, the modifier bits GLFW passes along, and the outcome of the random
source in case the click completes a triangle. -/
structure Click (D F : Type) where
  xpos : D
  ypos : D
  mods : Int
  rnd : Draws F
deriving DecidableEq, Repr

/-- One click processed by the handler. -/
def onClick (toFloat : D → F) (c : Click D F) (s : Accumulator F) : Accumulator F :=
  mouse_button_callback toFloat c.xpos c.ypos c.rnd
    GLFW_MOUSE_BUTTON_LEFT GLFW_PRESS c.mods s

/-- A sequence of clicks processed in order, the first click of the list first. -/
def clicks (toFloat : D → F) (cs : List (Click D F)) (s : Accumulator F) : Accumulator F :=
  cs.foldl (fun acc c => onClick toFloat c acc) s

/-- The vertex a click contributes. -/
def Click.vertex (toFloat : D → F) (c : Click D F) : vec3 F :=
  pendingVertex toFloat c.xpos c.ypos

end Callback

/-! ## The render section of the main loop -/

/-- Value of `GL_COLOR_BUFFER_BIT` in the OpenGL headers. -/
def GL_COLOR_BUFFER_BIT : Nat := 0x4000

/-- Value of `GL_ARRAY_BUFFER` in the OpenGL headers. -/
def GL_ARRAY_BUFFER : Nat := 0x8892

/-- Value of `GL_DYNAMIC_DRAW` in the OpenGL headers. -/
def GL_DYNAMIC_DRAW : Nat := 0x88E8

/-- Value of `GL_TRIANGLES` in the OpenGL headers. -/
def GL_TRIANGLES : Nat := 0x0004

/-- The size in bytes of a `vec3`: three 4-byte floats. -/
def sizeof_vec3 : Nat := 12

/-- The conversion `static_cast<GLint>` applied to a `size_t`: `GLint` is a
32-bit two's-complement integer, so the value is reduced modulo `2^32` into
`[-2^31, 2^31)`. -/
def toGLint (n : Nat) : Int :=
  if n % 2 ^ 32 < 2 ^ 31 then ((n % 2 ^ 32 : Nat) : Int)
  else ((n % 2 ^ 32 : Nat) : Int) - 2 ^ 32

/-- The calls to the graphics and windowing libraries that the render section
issues, with the arguments the claims are about.  `glUniformMatrix4fv` stands
for the upload of the matrix `ortho(0, fbw, fbh, 0, -1, 1)` and keeps the two
framebuffer dimensions; `glBufferData` keeps the byte size and the data
pointed to (`none` for `nullptr`). -/
inductive GLCall (F : Type) where
  | glClearColor (red green blue alpha : F)
  | glClear (mask : Nat)
  | glUniformMatrix4fv (location : Int) (fbw fbh : Int)
  | glBindBuffer (target : Nat) (buffer : Nat)
  | glBufferData (target : Nat) (size : Nat) (data : Option (List (vec3 F))) (usage : Nat)
  | glBindVertexArray (array : Nat)
  | glUniform4f (location : Int) (v0 v1 v2 v3 : F)
  | glDrawArrays (mode : Nat) (first : Int) (count : Int)
  | glfwSwapBuffers
deriving DecidableEq, Repr

/-- The handles `main` holds while the loop runs: the globals `gVBO`, `gVAO`
set by `setupGeometry` and the two uniform locations of lines 100-101. -/
structure Handles where
  gVBO : Nat
  gVAO : Nat
  projLoc : Int
  colorLoc : Int
deriving DecidableEq, Repr

section Render

variable {F : Type}

/-- The loop of lines 131-136, `remaining` iterations from index `i` on:
`for (; i < triCount; ++i)` with `remaining = triCount - i`.  The read
`g_colors[i]` of an index past the end of the vector has no defined result,
which is `none`. -/
def drawLoop (colorLoc : Int) (g_colors : List (vec4 F)) :
    (remaining : Nat) → (i : Nat) → Option (List (GLCall F))
  | 0, _ => some []
  | remaining + 1, i =>
    match g_colors[i]? with
    | none => none
    | some c =>
      match drawLoop colorLoc g_colors remaining (i + 1) with
      | none => none
      | some rest =>
        some (GLCall.glUniform4f colorLoc c.r c.g c.b c.a ::
              GLCall.glDrawArrays GL_TRIANGLES (toGLint (i * 3)) 3 :: rest)

/-- The render section of one iteration of the main loop (lines 109-139), for
a framebuffer of size `fbw` x `fbh`: the calls it issues, in order, and the
accumulator it leaves behind. -/
def renderFrame [OfScientific F] (h : Handles) (fbw fbh : Int) (s : Accumulator F) :
    Option (List (GLCall F) × Accumulator F) :=
  let upload : GLCall F :=
    if ¬ s.g_vertices.isEmpty then
      GLCall.glBufferData GL_ARRAY_BUFFER (s.g_vertices.length * sizeof_vec3)
        (some s.g_vertices) GL_DYNAMIC_DRAW
    else
      GLCall.glBufferData GL_ARRAY_BUFFER 0 none GL_DYNAMIC_DRAW
  let triCount := s.g_vertices.length / 3
  match drawLoop h.colorLoc s.g_colors triCount 0 with
  | none => none
  | some loop =>
    some ([GLCall.glClearColor 0.05 0.05 0.08 1.0,
           GLCall.glClear GL_COLOR_BUFFER_BIT,
           GLCall.glUniformMatrix4fv h.projLoc fbw fbh,
           GLCall.glBindBuffer GL_ARRAY_BUFFER h.gVBO,
           upload,
           GLCall.glBindVertexArray h.gVAO]
          ++ loop
          ++ [GLCall.glBindVertexArray 0, GLCall.glfwSwapBuffers], s)

/-- A draw unit: what one draw call puts on screen, the colour in the uniform
`inputColor` and the vertices the call reads. -/
structure DrawUnit (F : Type) where
  color : vec4 F
  vertices : List (vec3 F)
deriving DecidableEq, Repr

/-- What the renderer keeps between calls, as far as this program uses it: the
data store of the one vertex buffer and the value of the uniform `inputColor`. -/
structure GLState (F : Type) where
  store : List (vec3 F)
  inputColor : vec4 F
deriving DecidableEq, Repr

/-- The draw units a sequence of calls produces, from renderer state `st`.
This is the external renderer, written after the OpenGL specification for the
one buffer, one vertex array and one program this exercise creates:
`glBufferData` replaces the buffer's store, `glUniform4f` at the location of
`inputColor` sets the colour, and `glDrawArrays(mode, first, count)` reads the
vertices `first, ..., first + count - 1` of the store.  A negative `first` and
a read past the end of the store are undefined there, which is `none`; a
negative `count` is an error that draws nothing. -/
def drawUnits (colorLoc : Int) : GLState F → List (GLCall F) → Option (List (DrawUnit F))
  | _, [] => some []
  | st, GLCall.glBufferData _ _ data _ :: rest =>
    drawUnits colorLoc { st with store := data.getD [] } rest
  | st, GLCall.glUniform4f location v0 v1 v2 v3 :: rest =>
    if location = colorLoc then
      drawUnits colorLoc { st with inputColor := { r := v0, g := v1, b := v2, a := v3 } } rest
    else
      drawUnits colorLoc st rest
  | st, GLCall.glDrawArrays _ first count :: rest =>
    if count < 0 then
      drawUnits colorLoc st rest
    else if first < 0 ∨ st.store.length < first.toNat + count.toNat then
      none
    else
      match drawUnits colorLoc st rest with
      | none => none
      | some units =>
        some ({ color := st.inputColor,
                vertices := (st.store.drop first.toNat).take count.toNat } :: units)
  | st, _ :: rest => drawUnits colorLoc st rest

/-- The calls of the loop body for the colours `cols`, the first of them at
loop index `i`: the unrolled form of `drawLoop` used in the proofs. -/
def loopCalls (colorLoc : Int) : List (vec4 F) → Nat → List (GLCall F)
  | [], _ => []
  | c :: cols, i =>
    GLCall.glUniform4f colorLoc c.r c.g c.b c.a ::
      GLCall.glDrawArrays GL_TRIANGLES (toGLint (i * 3)) 3 :: loopCalls colorLoc cols (i + 1)

/-- The draw units that pair the colours `cols`, the first of them at index
`i`, with the consecutive vertex triples of `store` from position `3 * i` on. -/
def unitsFrom (store : List (vec3 F)) : List (vec4 F) → Nat → List (DrawUnit F)
  | [], _ => []
  | c :: cols, i =>
    { color := c, vertices := (store.drop (i * 3)).take 3 } :: unitsFrom store cols (i + 1)

end Render

/-! ## The random source -/

section RandomSource

variable {F : Type} [OfScientific F] [LE F] [LT F]

/-- The guarantee the C++ standard gives for a value `x` returned by
`std::uniform_real_distribution<float> dist(0.2f, 1.0f)`: `a ≤ x < b` for the
bounds `a = 0.2f`, `b = 1.0f` of line 175. -/
def inDistRange (x : F) : Prop :=
  (0.2 : F) ≤ x ∧ x < (1.0 : F)

instance [DecidableRel (LE.le : F → F → Prop)] [DecidableRel (LT.lt : F → F → Prop)]
    (x : F) : Decidable (inDistRange x) :=
  inferInstanceAs (Decidable ((0.2 : F) ≤ x ∧ x < (1.0 : F)))

/-- The three values drawn at a click all satisfy the guarantee of the
distribution. -/
def Draws.inRange (rnd : Draws F) : Prop :=
  inDistRange rnd.red ∧ inDistRange rnd.green ∧ inDistRange rnd.blue

instance [DecidableRel (LE.le : F → F → Prop)] [DecidableRel (LT.lt : F → F → Prop)]
    (rnd : Draws F) : Decidable rnd.inRange :=
  inferInstanceAs
    (Decidable (inDistRange rnd.red ∧ inDistRange rnd.green ∧ inDistRange rnd.blue))

end RandomSource

/-! ## Concrete runs

The runs below instantiate `F` and `D` by `ℚ`, with `static_cast<float>` the
identity on the coordinates used. -/

/-- Scenario A: three clicks at (10,10), (20,10), (15,20). -/
def scenarioA : List (Click ℚ ℚ) :=
  [ { xpos := 10, ypos := 10, mods := 0, rnd := { red := 0.5, green := 0.25, blue := 0.75 } },
    { xpos := 20, ypos := 10, mods := 0, rnd := { red := 0.5, green := 0.25, blue := 0.75 } },
    { xpos := 15, ypos := 20, mods := 0, rnd := { red := 0.5, green := 0.25, blue := 0.75 } } ]

/-- Scenario D: six clicks that form the same triangle twice; the random source
returns different values at the third and at the sixth click. -/
def scenarioD : List (Click ℚ ℚ) :=
  [ { xpos := 10, ypos := 10, mods := 0, rnd := { red := 0.5, green := 0.25, blue := 0.75 } },
    { xpos := 20, ypos := 10, mods := 0, rnd := { red := 0.5, green := 0.25, blue := 0.75 } },
    { xpos := 15, ypos := 20, mods := 0, rnd := { red := 0.5, green := 0.25, blue := 0.75 } },
    { xpos := 10, ypos := 10, mods := 0, rnd := { red := 0.25, green := 0.75, blue := 0.5 } },
    { xpos := 20, ypos := 10, mods := 0, rnd := { red := 0.25, green := 0.75, blue := 0.5 } },
    { xpos := 15, ypos := 20, mods := 0, rnd := { red := 0.25, green := 0.75, blue := 0.5 } } ]

/-- Three clicks at which the distribution returns its lower bound `0.2f`. -/
def lowerBoundClicks : List (Click ℚ ℚ) :=
  [ { xpos := 10, ypos := 10, mods := 0, rnd := { red := 0.2, green := 0.2, blue := 0.2 } },
    { xpos := 20, ypos := 10, mods := 0, rnd := { red := 0.2, green := 0.2, blue := 0.2 } },
    { xpos := 15, ypos := 20, mods := 0, rnd := { red := 0.2, green := 0.2, blue := 0.2 } } ]

/-- A run of 2147483652 clicks at one point: 715827884 triangles, the last of
which starts at vertex index 2147483649, one past the largest `GLint`. -/
def manyClicks : List (Click ℚ ℚ) :=
  List.replicate 2147483652
    { xpos := 10, ypos := 10, mods := 0, rnd := { red := 0.5, green := 0.25, blue := 0.75 } }

/-- Handles as a run of the program may hold them. -/
def sampleHandles : Handles :=
  { gVBO := 1, gVAO := 1, projLoc := 0, colorLoc := 1 }

/-- The renderer before the first frame: the buffer created by `setupGeometry`
has an empty store and the uniform `inputColor` is zero. -/
def sampleGLState : GLState ℚ :=
  { store := [], inputColor := { r := 0, g := 0, b := 0, a := 0 } }

/-- Clicks with coordinates no validation would accept: negative, far outside
the window, and the same point twice (a degenerate triangle). -/
def degenerateClicks : List (Click ℚ ℚ) :=
  [ { xpos := -5, ypos := -5, mods := 0, rnd := { red := 0.5, green := 0.25, blue := 0.75 } },
    { xpos := -5, ypos := -5, mods := 0, rnd := { red := 0.5, green := 0.25, blue := 0.75 } },
    { xpos := 100000, ypos := 7, mods := 0, rnd := { red := 0.5, green := 0.25, blue := 0.75 } } ]

/-! ## The keyboard callback -/

/-- Value of `GLFW_KEY_ESCAPE` in `GLFW/glfw3.h`. -/
def GLFW_KEY_ESCAPE : Int := 256

/-- Value of `GLFW_KEY_SPACE` in `GLFW/glfw3.h`. -/
def GLFW_KEY_SPACE : Int := 32

/-- Value of `GLFW_REPEAT` in `GLFW/glfw3.h`. -/
def GLFW_REPEAT : Int := 2

/-- Value of `GL_TRUE` in the OpenGL headers. -/
def GL_TRUE : Int := 1

/-- The part of a GLFW window the keyboard callback touches: the close flag
that `glfwWindowShouldClose` reads in the loop condition of `main`. -/
structure GLFWwindow where
  shouldClose : Int
deriving DecidableEq, Repr

/-- The library function `glfwSetWindowShouldClose(window, value)`, by its
documented effect: it sets the close flag of the window to `value`. -/
def glfwSetWindowShouldClose (window : GLFWwindow) (value : Int) : GLFWwindow :=
  { window with shouldClose := value }

/-- The function `key_callback` (lines 150-154). -/
def key_callback (window : GLFWwindow) (key _scancode action _mode : Int) : GLFWwindow :=
  if key = GLFW_KEY_ESCAPE ∧ action = GLFW_PRESS then
    glfwSetWindowShouldClose window GL_TRUE
  else
    window

end Lista2Exercicio6

/-! # The four-viewport exercise (`src/Exercicios/Lista2/Exercicio5.cpp`) -/

namespace Lista2Exercicio5

/-- The division `/` of C on `int`: the quotient truncated towards zero. -/
def cdiv (a b : Int) : Int := Int.tdiv a b

/-- A viewport rectangle as passed to `glViewport(x, y, width, height)`, in
pixels, the origin at the lower left corner of the framebuffer. -/
structure Viewport where
  x : Int
  y : Int
  width : Int
  height : Int
deriving DecidableEq, Repr

/-- The calls of one frame of the main loop (lines 105-139) that the claims are
about.  `glUniformMatrix4fv` stands for the upload of
`ortho(0, width, height, 0, -1, 1)` and keeps the two dimensions. -/
inductive GLCall where
  | glClearColor
  | glClear
  | glUniformMatrix4fv (width height : Int)
  | glViewport (x y width height : Int)
  | glBindVertexArray (array : Nat)
  | glDrawArrays (first count : Int)
  | glfwSwapBuffers
deriving DecidableEq, Repr

/-- The body of the main loop after the event poll (lines 105-139), for the
framebuffer size `width` x `height` that `glfwGetFramebufferSize` reports. -/
def renderFrame (VAO : Nat) (width height : Int) : List GLCall :=
  [ GLCall.glClearColor,
    GLCall.glClear,
    GLCall.glUniformMatrix4fv width height,
    GLCall.glViewport 0 0 (cdiv width 2) (cdiv height 2),
    GLCall.glBindVertexArray VAO,
    GLCall.glDrawArrays 0 3,
    GLCall.glViewport (cdiv width 2) 0 (cdiv width 2) (cdiv height 2),
    GLCall.glDrawArrays 0 3,
    GLCall.glViewport 0 (cdiv height 2) (cdiv width 2) (cdiv height 2),
    GLCall.glDrawArrays 0 3,
    GLCall.glViewport (cdiv width 2) (cdiv height 2) (cdiv width 2) (cdiv height 2),
    GLCall.glDrawArrays 0 3,
    GLCall.glBindVertexArray 0,
    GLCall.glfwSwapBuffers ]

/-- The viewport rectangles a sequence of calls sets, in order. -/
def viewportsOf : List GLCall → List Viewport
  | [] => []
  | GLCall.glViewport x y width height :: rest =>
    { x := x, y := y, width := width, height := height } :: viewportsOf rest
  | _ :: rest => viewportsOf rest

/-- The viewports set in one frame. -/
def frameViewports (VAO : Nat) (width height : Int) : List Viewport :=
  viewportsOf (renderFrame VAO width height)

/-- Pixel `(px, py)` lies in the rectangle `v`. -/
def Viewport.contains (v : Viewport) (px py : Int) : Bool :=
  decide (v.x ≤ px ∧ px < v.x + v.width ∧ v.y ≤ py ∧ py < v.y + v.height)

/-- The rectangle `v` lies inside a framebuffer of size `width` x `height`. -/
def Viewport.inside (v : Viewport) (width height : Int) : Bool :=
  decide (0 ≤ v.x ∧ 0 ≤ v.y ∧ 0 ≤ v.width ∧ 0 ≤ v.height
    ∧ v.x + v.width ≤ width ∧ v.y + v.height ≤ height)

/-- The number of rectangles of `vs` that contain pixel `(px, py)`. -/
def coverCount (vs : List Viewport) (px py : Int) : Nat :=
  (vs.filter (fun v => v.contains px py)).length

end Lista2Exercicio5

/-! # The circle exercise (`src/Exercicios/Lista1/Exercicio6.cpp`) -/

namespace Lista1Exercicio6

/-- The constant `segments` of line 20. -/
def segments : Int := 100

/-- The size in bytes of a `GLfloat`. -/
def sizeof_GLfloat : Int := 4

/-- The functions of the C library and the conversions between the numeric
types that `setupGeometry` uses; `F` is `float`, `D` is `double`.  They stay
abstract: each is a function, so equal arguments give equal results. -/
structure CMath (F D : Type) where
  M_PI : D
  cos : F → F
  sin : F → F
  intToDouble : Int → D
  floatToDouble : F → D
  doubleToFloat : D → F

/-- A C array of floats with its write history: `size` elements, element `j`
holding `cell j` (`none` while it is uninitialised), and `log`, the indices
written so far, in the order of the writes. -/
structure FloatArray (F : Type) where
  size : Int
  cell : Int → Option F
  log : List Int

/-- The declaration `GLfloat vertices[size]`: nothing written yet. -/
def FloatArray.uninitialised {F : Type} (size : Int) : FloatArray F :=
  { size := size, cell := fun _ => none, log := [] }

/-- The assignment `a[idx] = v`.  An index outside `0 .. size - 1` has no
defined behaviour, which is `none`. -/
def store {F : Type} (a : FloatArray F) (idx : Int) (v : F) : Option (FloatArray F) :=
  if 0 ≤ idx ∧ idx < a.size then
    some { a with cell := Function.update a.cell idx (some v), log := a.log ++ [idx] }
  else
    none

section Circle

variable {F D : Type} [OfScientific F] [Add F] [Mul F] [Mul D] [Div D]

/-- The local `centerX` of `setupGeometry`. -/
def centerX : F := 0.0

/-- The local `centerY` of `setupGeometry`. -/
def centerY : F := 0.0

/-- The local `radius` of `setupGeometry`. -/
def radius : F := 0.5

/-- The initialiser `2.0f * M_PI * k / segments` of `theta1` (with `k = i`) and
of `theta2` (with `k = i + 1`): computed in `double`, stored in a `float`. -/
def theta (cm : CMath F D) (k : Int) : F :=
  cm.doubleToFloat
    (cm.floatToDouble (2.0 : F) * cm.M_PI * cm.intToDouble k / cm.intToDouble segments)

/-- The body of the loop of `setupGeometry` (lines 162-178) at index `i`. -/
def loopBody (cm : CMath F D) (i : Int) (vertices : FloatArray F) : Option (FloatArray F) := do
  let theta1 : F := theta cm i
  let theta2 : F := theta cm (i + 1)
  let vertices ← store vertices (i * 9) centerX
  let vertices ← store vertices (i * 9 + 1) centerY
  let vertices ← store vertices (i * 9 + 2) 0.0
  let vertices ← store vertices (i * 9 + 3) (centerX + radius * cm.cos theta1)
  let vertices ← store vertices (i * 9 + 4) (centerY + radius * cm.sin theta1)
  let vertices ← store vertices (i * 9 + 5) 0.0
  let vertices ← store vertices (i * 9 + 6) (centerX + radius * cm.cos theta2)
  let vertices ← store vertices (i * 9 + 7) (centerY + radius * cm.sin theta2)
  store vertices (i * 9 + 8) 0.0

/-- The loop `for (; i < segments; ++i)` of lines 161-179, `remaining`
iterations from index `i` on, with `remaining = segments - i`. -/
def fillLoop (cm : CMath F D) : (remaining : Nat) → (i : Int) → FloatArray F →
    Option (FloatArray F)
  | 0, _, vertices => some vertices
  | remaining + 1, i, vertices =>
    match loopBody cm i vertices with
    | none => none
    | some vertices => fillLoop cm remaining (i + 1) vertices

/-- The array `vertices` as `setupGeometry` has filled it when the loop ends
(lines 159-179). -/
def setupGeometryVertices (cm : CMath F D) : Option (FloatArray F) :=
  fillLoop cm (segments - 0).toNat 0 (FloatArray.uninitialised (segments * 9))

/-- The array holds, in the nine elements of triangle `i`, the values that
iteration `i` of the loop assigns: used to state the loop invariant. -/
def IterationStored (cm : CMath F D) (vertices : FloatArray F) (i : Int) : Prop :=
  vertices.cell (i * 9) = some centerX
  ∧ vertices.cell (i * 9 + 1) = some centerY
  ∧ vertices.cell (i * 9 + 2) = some 0.0
  ∧ vertices.cell (i * 9 + 3) = some (centerX + radius * cm.cos (theta cm i))
  ∧ vertices.cell (i * 9 + 4) = some (centerY + radius * cm.sin (theta cm i))
  ∧ vertices.cell (i * 9 + 5) = some 0.0
  ∧ vertices.cell (i * 9 + 6) = some (centerX + radius * cm.cos (theta cm (i + 1)))
  ∧ vertices.cell (i * 9 + 7) = some (centerY + radius * cm.sin (theta cm (i + 1)))
  ∧ vertices.cell (i * 9 + 8) = some 0.0

end Circle

/-- The byte size `sizeof(vertices)` that `glBufferData` uploads (line 186):
`segments * 9` floats. -/
def uploadSize : Int := segments * 9 * sizeof_GLfloat

/-- The number of components per vertex given to `glVertexAttribPointer`
(line 201). -/
def attribComponents : Int := 3

/-- The stride `3 * sizeof(GLfloat)` given to `glVertexAttribPointer`. -/
def attribStride : Int := 3 * sizeof_GLfloat

/-- The offset `(GLvoid *)0` given to `glVertexAttribPointer`. -/
def attribOffset : Int := 0

/-- Vertex `k` of the attribute lies within the uploaded store: its
`attribComponents` floats end no later than the store does. -/
def vertexInStore (k : Int) : Bool :=
  decide (0 ≤ k ∧ attribOffset + k * attribStride + attribComponents * sizeof_GLfloat
    ≤ uploadSize)

/-- The number of vertices the uploaded store holds: `segments * 9` floats read
three per vertex. -/
def bufferVertexCount : Int := Int.tdiv uploadSize attribStride

/-- The argument `first` of the call `glDrawArrays(GL_TRIANGLES, 0, segments * 9)`
in the render loop (line 98). -/
def drawFirst : Int := 0

/-- The argument `count` of the call `glDrawArrays(GL_TRIANGLES, 0, segments * 9)`
in the render loop (line 98). -/
def drawCount : Int := segments * 9

/-- A sample of the library functions over `ℚ`, for concrete runs: the
conversions are the identity and `cos`, `sin` are polynomial stand-ins. -/
def sampleCMath : CMath ℚ ℚ :=
  { M_PI := 355 / 113,
    cos := fun x => 1 - x * x / 2,
    sin := fun x => x - x * x * x / 6,
    intToDouble := fun n => (n : ℚ),
    floatToDouble := id,
    doubleToFloat := id }

end Lista1Exercicio6

/-! # The house exercise (`src/Exercicios/Lista1/Exercicio9.cpp`) -/

namespace Lista1Exercicio9

/-- The twelve vertex arrays local to `setupGeometry`. -/
inductive GeometryArray where
  | roofBorder | roofFill | roofBase | wallLeft | wallRight | windowFill
  | windowBorder | winCrossV | winCrossH | doorFrame | doorFill | ground
deriving DecidableEq, Repr

/-- The expression `sizeof(a) / sizeof(GLfloat)`: the number of floats in the
initialiser of the array. -/
def GeometryArray.count : GeometryArray → Nat
  | .roofBorder => 9
  | .roofFill => 9
  | _ => 18

/-- The size in bytes of a `GLfloat`. -/
def sizeof_GLfloat : Nat := 4

/-- The global handles of lines 30-34. -/
structure Globals where
  vaoRoofBorder : Nat
  vaoRoofFill : Nat
  vaoWallLeft : Nat
  vaoWallRight : Nat
  vaoWindowFill : Nat
  vaoWindowBorder : Nat
  vaoWinCrossV : Nat
  vaoWinCrossH : Nat
  vaoDoorFrame : Nat
  vaoDoorFill : Nat
  vaoGround : Nat
  vaoRoofBase : Nat
deriving DecidableEq, Repr

/-- The globals at program start: zero-initialised. -/
def Globals.initial : Globals :=
  { vaoRoofBorder := 0, vaoRoofFill := 0, vaoWallLeft := 0, vaoWallRight := 0,
    vaoWindowFill := 0, vaoWindowBorder := 0, vaoWinCrossV := 0, vaoWinCrossH := 0,
    vaoDoorFrame := 0, vaoDoorFill := 0, vaoGround := 0, vaoRoofBase := 0 }

/-- The library calls of `makeVAO` and of the exit path of `main`. -/
inductive GLCall where
  | glGenVertexArrays (name : Nat)
  | glGenBuffers (name : Nat)
  | glBindVertexArray (array : Nat)
  | glBindBuffer (buffer : Nat)
  | glBufferData (size : Nat) (data : GeometryArray)
  | glVertexAttribPointer
  | glEnableVertexAttribArray
  | glDeleteVertexArrays (array : Nat)
  | glfwTerminate
deriving DecidableEq, Repr

/-- The names the graphics library hands out: `vaoName k` is what the `k`-th
call of `glGenVertexArrays` returns, `bufName k` what the `k`-th call of
`glGenBuffers` returns (counting from 0). -/
structure NameSource where
  vaoName : Nat → Nat
  bufName : Nat → Nat

/-- The graphics context as far as the handles are concerned: how many names of
each kind were generated, and the calls issued so far. -/
structure Context where
  vaosGenerated : Nat
  buffersGenerated : Nat
  calls : List GLCall
deriving DecidableEq, Repr

/-- The context when `setupGeometry` is entered. -/
def Context.initial : Context :=
  { vaosGenerated := 0, buffersGenerated := 0, calls := [] }

/-- The function `makeVAO(data, count, vaoOut)` (lines 157-168): the value it
leaves in `vaoOut` and the context after it. -/
def makeVAO (src : NameSource) (data : GeometryArray) (count : Nat) (ctx : Context) :
    Nat × Context :=
  let vaoOut := src.vaoName ctx.vaosGenerated
  let vbo := src.bufName ctx.buffersGenerated
  (vaoOut,
    { vaosGenerated := ctx.vaosGenerated + 1,
      buffersGenerated := ctx.buffersGenerated + 1,
      calls := ctx.calls ++
        [ GLCall.glGenVertexArrays vaoOut,
          GLCall.glGenBuffers vbo,
          GLCall.glBindVertexArray vaoOut,
          GLCall.glBindBuffer vbo,
          GLCall.glBufferData (count * sizeof_GLfloat) data,
          GLCall.glVertexAttribPointer,
          GLCall.glEnableVertexAttribArray,
          GLCall.glBindBuffer 0,
          GLCall.glBindVertexArray 0 ] })

/-- The twelve calls of `makeVAO` that end `setupGeometry` (lines 252-263), in
the order of the source. -/
def setupGeometry (src : NameSource) (g : Globals) (ctx : Context) : Globals × Context :=
  let (v, ctx) := makeVAO src .roofBorder GeometryArray.roofBorder.count ctx
  let g := { g with vaoRoofBorder := v }
  let (v, ctx) := makeVAO src .roofFill GeometryArray.roofFill.count ctx
  let g := { g with vaoRoofFill := v }
  let (v, ctx) := makeVAO src .roofBase GeometryArray.roofBase.count ctx
  let g := { g with vaoRoofBase := v }
  let (v, ctx) := makeVAO src .wallLeft GeometryArray.wallLeft.count ctx
  let g := { g with vaoWallLeft := v }
  let (v, ctx) := makeVAO src .wallRight GeometryArray.wallRight.count ctx
  let g := { g with vaoWallRight := v }
  let (v, ctx) := makeVAO src .windowFill GeometryArray.windowFill.count ctx
  let g := { g with vaoWindowFill := v }
  let (v, ctx) := makeVAO src .windowBorder GeometryArray.windowBorder.count ctx
  let g := { g with vaoWindowBorder := v }
  let (v, ctx) := makeVAO src .winCrossV GeometryArray.winCrossV.count ctx
  let g := { g with vaoWinCrossV := v }
  let (v, ctx) := makeVAO src .winCrossH GeometryArray.winCrossH.count ctx
  let g := { g with vaoWinCrossH := v }
  let (v, ctx) := makeVAO src .doorFrame GeometryArray.doorFrame.count ctx
  let g := { g with vaoDoorFrame := v }
  let (v, ctx) := makeVAO src .doorFill GeometryArray.doorFill.count ctx
  let g := { g with vaoDoorFill := v }
  let (v, ctx) := makeVAO src .ground GeometryArray.ground.count ctx
  let g := { g with vaoGround := v }
  (g, ctx)

/-- The handles `setupGeometry` assigned through `makeVAO`: the twelve globals
after the call. -/
def createdVAOs (g : Globals) : List Nat :=
  [ g.vaoRoofBorder, g.vaoRoofFill, g.vaoRoofBase, g.vaoWallLeft, g.vaoWallRight,
    g.vaoWindowFill, g.vaoWindowBorder, g.vaoWinCrossV, g.vaoWinCrossH,
    g.vaoDoorFrame, g.vaoDoorFill, g.vaoGround ]

/-- The exit path of `main` once the loop has ended (lines 124-130): the array
`vaos`, one `glDeleteVertexArrays` per element, `glfwTerminate`, and the
status returned. -/
def exitPath (g : Globals) : List GLCall × Int :=
  let vaos := [ g.vaoRoofBorder, g.vaoRoofFill, g.vaoWallLeft, g.vaoWallRight,
                g.vaoWindowFill, g.vaoWindowBorder, g.vaoWinCrossV, g.vaoWinCrossH,
                g.vaoDoorFrame, g.vaoDoorFill, g.vaoGround ]
  (vaos.map GLCall.glDeleteVertexArrays ++ [GLCall.glfwTerminate], 0)

/-- The run of `main` on its normal path, as far as the handles go:
`setupGeometry` from the initial globals, then (the render loop changes no
handle) the exit path.  The result is the globals, all calls in order, and the
exit status. -/
def mainHandles (src : NameSource) : Globals × List GLCall × Int :=
  let (g, ctx) := setupGeometry src Globals.initial Context.initial
  let (calls, status) := exitPath g
  (g, ctx.calls ++ calls, status)

/-- A name source that numbers the objects 1, 2, 3, ... as drivers commonly
do. -/
def sequentialNames : NameSource :=
  { vaoName := fun k => k + 1, bufName := fun k => k + 1 }

end Lista1Exercicio9

namespace Lista2Exercicio6

/-! ## Step lemmas for the handler -/

section StepLemmas

variable {D F : Type} [OfScientific F]

theorem onClick_of_two (toFloat : D → F) (c : Click D F) (s : Accumulator F)
    (p0 p1 : vec3 F) (h : s.g_pending = [p0, p1]) :
    onClick toFloat c s =
      { g_pending := [],
        g_vertices := s.g_vertices ++ [p0, p1, c.vertex toFloat],
        g_colors := s.g_colors ++ [randomColor c.rnd] } := by
  simp [onClick, mouse_button_callback, h, Click.vertex]

theorem onClick_of_ne_two (toFloat : D → F) (c : Click D F) (s : Accumulator F)
    (h : s.g_pending.length ≠ 2) :
    onClick toFloat c s = { s with g_pending := s.g_pending ++ [c.vertex toFloat] } := by
  simp [onClick, mouse_button_callback, h, Click.vertex]

theorem clicks_nil (toFloat : D → F) (s : Accumulator F) :
    clicks toFloat [] s = s := rfl

theorem clicks_append (toFloat : D → F) (cs ds : List (Click D F)) (s : Accumulator F) :
    clicks toFloat (cs ++ ds) s = clicks toFloat ds (clicks toFloat cs s) := by
  simp [clicks, List.foldl_append]

theorem clicks_snoc (toFloat : D → F) (cs : List (Click D F)) (c : Click D F)
    (s : Accumulator F) :
    clicks toFloat (cs ++ [c]) s = onClick toFloat c (clicks toFloat cs s) := by
  simp [clicks, List.foldl_append]

/-- The invariant of the accumulator along any run from the empty state: the
committed vertices followed by the pending ones are the clicks in order, the
pending list holds `N mod 3` points, the committed list `3 * (N / 3)`, there
are `N / 3` colours and the `k`-th colour is the one drawn at click `3k + 2`. -/
theorem clicks_invariant (toFloat : D → F) (cs : List (Click D F)) :
    (clicks toFloat cs Accumulator.empty).g_vertices
        ++ (clicks toFloat cs Accumulator.empty).g_pending
      = cs.map (Click.vertex toFloat)
    ∧ (clicks toFloat cs Accumulator.empty).g_pending.length = cs.length % 3
    ∧ (clicks toFloat cs Accumulator.empty).g_vertices.length = 3 * (cs.length / 3)
    ∧ (clicks toFloat cs Accumulator.empty).g_colors.length = cs.length / 3
    ∧ ∀ k, k < cs.length / 3 →
        (clicks toFloat cs Accumulator.empty).g_colors[k]?
          = cs[3 * k + 2]?.map (fun c => randomColor c.rnd) := by
  induction cs using List.reverseRecOn with
  | nil => simp [clicks, Accumulator.empty]
  | append_singleton l c ih =>
    obtain ⟨h1, h2, h3, h4, h5⟩ := ih
    rw [clicks_snoc]
    generalize clicks toFloat l Accumulator.empty = s at h1 h2 h3 h4 h5
    by_cases hp : s.g_pending.length = 2
    · obtain ⟨p0, p1, hpend⟩ : ∃ p0 p1, s.g_pending = [p0, p1] := by
        match hs : s.g_pending, hp with
        | [a, b], _ => exact ⟨a, b, rfl⟩
      rw [onClick_of_two toFloat c s p0 p1 hpend]
      have hl : l.length % 3 = 2 := by omega
      refine ⟨?_, ?_, ?_, ?_, ?_⟩
      · simp only [List.append_nil, List.map_append, List.map_cons, List.map_nil, ← h1, hpend]
        simp
      · simp; omega
      · simp; omega
      · simp; omega
      · intro k hk
        simp only [List.length_append, List.length_singleton] at hk
        by_cases hk2 : k < l.length / 3
        · have := h5 k hk2
          rw [List.getElem?_append_left (by omega), this,
            List.getElem?_append_left (by omega)]
        · have hk3 : k = l.length / 3 := by omega
          have hidx : 3 * k + 2 = l.length := by omega
          rw [List.getElem?_append_right (by omega), hidx,
            List.getElem?_append_right (by omega)]
          simp [h4, hk3]
    · rw [onClick_of_ne_two toFloat c s hp]
      have hl : l.length % 3 ≠ 2 := by omega
      refine ⟨?_, ?_, ?_, ?_, ?_⟩
      · simp [← h1]
      · simp; omega
      · simp; omega
      · simp; omega
      · intro k hk
        simp only [List.length_append, List.length_singleton] at hk
        have hk2 : k < l.length / 3 := by omega
        rw [h5 k hk2, List.getElem?_append_left (by omega)]

/-- Below the number of committed vertices, the committed list and the click
sequence agree entry by entry. -/
theorem clicks_vertices_getElem? (toFloat : D → F) (cs : List (Click D F)) (i : Nat)
    (hi : i < 3 * (cs.length / 3)) :
    (clicks toFloat cs Accumulator.empty).g_vertices[i]?
      = cs[i]?.map (Click.vertex toFloat) := by
  obtain ⟨h1, _, h3, _, _⟩ := clicks_invariant toFloat cs
  rw [← List.getElem?_map, ← h1, List.getElem?_append_left (by omega)]

/-- One step of the handler only ever extends the committed lists. -/
theorem onClick_prefix (toFloat : D → F) (c : Click D F) (s : Accumulator F) :
    s.g_vertices <+: (onClick toFloat c s).g_vertices
    ∧ s.g_colors <+: (onClick toFloat c s).g_colors := by
  by_cases hp : s.g_pending.length = 2
  · obtain ⟨p0, p1, hpend⟩ : ∃ p0 p1, s.g_pending = [p0, p1] := by
      match hs : s.g_pending, hp with
      | [a, b], _ => exact ⟨a, b, rfl⟩
    rw [onClick_of_two toFloat c s p0 p1 hpend]
    exact ⟨List.prefix_append _ _, List.prefix_append _ _⟩
  · rw [onClick_of_ne_two toFloat c s hp]
    exact ⟨List.prefix_refl _, List.prefix_refl _⟩

theorem clicks_prefix (toFloat : D → F) (cs : List (Click D F)) (s : Accumulator F) :
    s.g_vertices <+: (clicks toFloat cs s).g_vertices
    ∧ s.g_colors <+: (clicks toFloat cs s).g_colors := by
  induction cs using List.reverseRecOn with
  | nil => exact ⟨List.prefix_refl _, List.prefix_refl _⟩
  | append_singleton l c ih =>
    rw [clicks_snoc]
    obtain ⟨hv, hc⟩ := onClick_prefix toFloat c (clicks toFloat l s)
    exact ⟨ih.1.trans hv, ih.2.trans hc⟩

end StepLemmas

/-! ## The claims about the handler -/

section HandlerClaims

variable {D F : Type} [OfScientific F]

/-- C1. From the empty accumulator, after any sequence of `N` left-press clicks
the number of committed triangles `g_vertices.size() / 3` is `N / 3` and the
number of pending points `g_pending.size()` is `N mod 3`. -/
theorem C1_triangle_and_pending_counts (toFloat : D → F) (cs : List (Click D F)) :
    (clicks toFloat cs Accumulator.empty).g_vertices.length / 3 = cs.length / 3
    ∧ (clicks toFloat cs Accumulator.empty).g_pending.length = cs.length % 3 := by
  obtain ⟨_, h2, h3, _, _⟩ := clicks_invariant toFloat cs
  exact ⟨by omega, h2⟩

/-- C2. From the empty accumulator, for every click sequence and every
`k < N / 3`, the vertices `g_vertices[3k]`, `g_vertices[3k+1]`,
`g_vertices[3k+2]` of the `k`-th committed triangle are the clicks `3k`,
`3k+1`, `3k+2`, in that order, each stored as `(x, y, 0)` with the coordinates
converted to `float`. -/
theorem C2_triangle_vertices_in_click_order (toFloat : D → F) (cs : List (Click D F))
    (k : Nat) (hk : k < cs.length / 3) :
    ∃ c0 c1 c2 : Click D F,
      cs[3 * k]? = some c0 ∧ cs[3 * k + 1]? = some c1 ∧ cs[3 * k + 2]? = some c2
      ∧ (clicks toFloat cs Accumulator.empty).g_vertices[3 * k]?
          = some { x := toFloat c0.xpos, y := toFloat c0.ypos, z := 0.0 }
      ∧ (clicks toFloat cs Accumulator.empty).g_vertices[3 * k + 1]?
          = some { x := toFloat c1.xpos, y := toFloat c1.ypos, z := 0.0 }
      ∧ (clicks toFloat cs Accumulator.empty).g_vertices[3 * k + 2]?
          = some { x := toFloat c2.xpos, y := toFloat c2.ypos, z := 0.0 } := by
  have b0 : 3 * k < cs.length := by omega
  have b1 : 3 * k + 1 < cs.length := by omega
  have b2 : 3 * k + 2 < cs.length := by omega
  refine ⟨cs[3 * k], cs[3 * k + 1], cs[3 * k + 2],
    List.getElem?_eq_getElem b0, List.getElem?_eq_getElem b1,
    List.getElem?_eq_getElem b2, ?_, ?_, ?_⟩
  · rw [clicks_vertices_getElem? toFloat cs _ (by omega), List.getElem?_eq_getElem b0]
    rfl
  · rw [clicks_vertices_getElem? toFloat cs _ (by omega), List.getElem?_eq_getElem b1]
    rfl
  · rw [clicks_vertices_getElem? toFloat cs _ (by omega), List.getElem?_eq_getElem b2]
    rfl

/-- C3. Committed history is append-only: from any accumulator state (so from
every reachable one) and for any further clicks, the committed vertex list
before is a prefix of the one after and the colour list before is a prefix of
the one after; the entries already present keep their position and value. -/
theorem C3_committed_history_append_only (toFloat : D → F) (cs : List (Click D F))
    (s : Accumulator F) :
    s.g_vertices <+: (clicks toFloat cs s).g_vertices
    ∧ s.g_colors <+: (clicks toFloat cs s).g_colors
    ∧ (clicks toFloat cs s).g_vertices.take s.g_vertices.length = s.g_vertices
    ∧ (clicks toFloat cs s).g_colors.take s.g_colors.length = s.g_colors := by
  obtain ⟨hv, hc⟩ := clicks_prefix toFloat cs s
  exact ⟨hv, hc, List.prefix_iff_eq_take.mp hv |>.symm, List.prefix_iff_eq_take.mp hc |>.symm⟩

/-- C4. In every state reached from the empty accumulator by a sequence of
clicks, the pending list `g_pending` holds at most 2 points. -/
theorem C4_pending_at_most_two (toFloat : D → F) (cs : List (Click D F)) :
    (clicks toFloat cs Accumulator.empty).g_pending.length ≤ 2 := by
  obtain ⟨_, h2, _, _, _⟩ := clicks_invariant toFloat cs
  omega

/-- C5. In every state reached from the empty accumulator by a sequence of
clicks, the length of `g_vertices` is a multiple of 3. -/
theorem C5_vertices_multiple_of_three (toFloat : D → F) (cs : List (Click D F)) :
    3 ∣ (clicks toFloat cs Accumulator.empty).g_vertices.length := by
  obtain ⟨_, _, h3, _, _⟩ := clicks_invariant toFloat cs
  exact ⟨cs.length / 3, h3⟩

/-- C6. In every state reached from the empty accumulator by a sequence of
clicks there is one colour per committed triangle,
`g_colors.size() * 3 = g_vertices.size()`, and the colours are stored in click
order: the `k`-th colour is the one drawn at the click that completed the
`k`-th triangle, whatever the geometry of the triangles. -/
theorem C6_one_color_per_triangle (toFloat : D → F) (cs : List (Click D F)) :
    (clicks toFloat cs Accumulator.empty).g_colors.length * 3
      = (clicks toFloat cs Accumulator.empty).g_vertices.length
    ∧ ∀ k, k < cs.length / 3 →
        ∃ c : Click D F, cs[3 * k + 2]? = some c
          ∧ (clicks toFloat cs Accumulator.empty).g_colors[k]?
              = some { r := c.rnd.red, g := c.rnd.green, b := c.rnd.blue, a := 1.0 } := by
  obtain ⟨_, _, h3, h4, h5⟩ := clicks_invariant toFloat cs
  refine ⟨by omega, ?_⟩
  intro k hk
  have b2 : 3 * k + 2 < cs.length := by omega
  refine ⟨cs[3 * k + 2], List.getElem?_eq_getElem b2, ?_⟩
  rw [h5 k hk, List.getElem?_eq_getElem b2]
  rfl

/-- Witness of C2 on scenario A, triangle 0. -/
theorem C2_triangle_vertices_in_click_order_witness :
    0 < scenarioA.length / 3
    ∧ ∃ c0 c1 c2 : Click ℚ ℚ,
      scenarioA[3 * 0]? = some c0 ∧ scenarioA[3 * 0 + 1]? = some c1
      ∧ scenarioA[3 * 0 + 2]? = some c2
      ∧ (clicks id scenarioA Accumulator.empty).g_vertices[3 * 0]?
          = some { x := id c0.xpos, y := id c0.ypos, z := 0.0 }
      ∧ (clicks id scenarioA Accumulator.empty).g_vertices[3 * 0 + 1]?
          = some { x := id c1.xpos, y := id c1.ypos, z := 0.0 }
      ∧ (clicks id scenarioA Accumulator.empty).g_vertices[3 * 0 + 2]?
          = some { x := id c2.xpos, y := id c2.ypos, z := 0.0 } :=
  ⟨by decide, C2_triangle_vertices_in_click_order id scenarioA 0 (by decide)⟩

/-- Witness of C6 on scenario D, triangle 1: the second of two geometrically
identical triangles has its own colour entry. -/
theorem C6_one_color_per_triangle_witness :
    1 < scenarioD.length / 3
    ∧ ∃ c : Click ℚ ℚ, scenarioD[3 * 1 + 2]? = some c
        ∧ (clicks id scenarioD Accumulator.empty).g_colors[1]?
            = some { r := c.rnd.red, g := c.rnd.green, b := c.rnd.blue, a := 1.0 } :=
  ⟨by decide, (C6_one_color_per_triangle id scenarioD).2 1 (by decide)⟩

/-- Scenario A, evaluated: one triangle with the vertices in click order, an
empty pending list. -/
theorem scenarioA_result :
    clicks id scenarioA Accumulator.empty
      = { g_pending := [],
          g_vertices := [{ x := 10, y := 10, z := 0.0 }, { x := 20, y := 10, z := 0.0 },
                         { x := 15, y := 20, z := 0.0 }],
          g_colors := [{ r := 0.5, g := 0.25, b := 0.75, a := 1.0 }] } := by
  rfl

/-- Scenario B, evaluated: five clicks give one committed triangle and two
pending points. -/
theorem scenarioB_result :
    (clicks id (scenarioD.take 5) Accumulator.empty).g_vertices.length / 3 = 1
    ∧ (clicks id (scenarioD.take 5) Accumulator.empty).g_pending.length = 2 := by
  decide

/-- Scenario D, evaluated: two triangles with the same vertices, two colour
entries in click order. -/
theorem scenarioD_result :
    clicks id scenarioD Accumulator.empty
      = { g_pending := [],
          g_vertices := [{ x := 10, y := 10, z := 0.0 }, { x := 20, y := 10, z := 0.0 },
                         { x := 15, y := 20, z := 0.0 },
                         { x := 10, y := 10, z := 0.0 }, { x := 20, y := 10, z := 0.0 },
                         { x := 15, y := 20, z := 0.0 }],
          g_colors := [{ r := 0.5, g := 0.25, b := 0.75, a := 1.0 },
                       { r := 0.25, g := 0.75, b := 0.5, a := 1.0 }] } := by
  rfl

end HandlerClaims

/-! ## Lemmas about the render section -/

section RenderLemmas

variable {F : Type}

theorem toGLint_of_lt (n : Nat) (h : n < 2 ^ 31) : toGLint n = (n : Int) := by
  have h1 : n % 2 ^ 32 = n := Nat.mod_eq_of_lt (by omega)
  unfold toGLint
  rw [h1, if_pos h]

/-- While the colour reads stay in bounds the loop runs to its end and issues
the unrolled calls. -/
theorem drawLoop_eq_loopCalls (colorLoc : Int) (g_colors : List (vec4 F)) :
    ∀ (n i : Nat), i + n ≤ g_colors.length →
      drawLoop colorLoc g_colors n i
        = some (loopCalls colorLoc ((g_colors.drop i).take n) i) := by
  intro n
  induction n with
  | zero => intro i _; simp [drawLoop, loopCalls]
  | succ n ih =>
    intro i hi
    have hlt : i < g_colors.length := by omega
    have hd : g_colors.drop i = g_colors[i] :: g_colors.drop (i + 1) :=
      List.drop_eq_getElem_cons hlt
    simp only [drawLoop, List.getElem?_eq_getElem hlt, ih (i + 1) (by omega), hd,
      List.take_succ_cons, loopCalls]

theorem unitsFrom_length (store : List (vec3 F)) (cols : List (vec4 F)) :
    ∀ i, (unitsFrom store cols i).length = cols.length := by
  induction cols with
  | nil => intro i; rfl
  | cons c cols ih => intro i; simp [unitsFrom, ih]

theorem unitsFrom_getElem? (store : List (vec3 F)) (cols : List (vec4 F)) :
    ∀ (i j : Nat), (unitsFrom store cols i)[j]?
      = cols[j]?.map (fun c => { color := c, vertices := (store.drop ((i + j) * 3)).take 3 }) := by
  induction cols with
  | nil => intro i j; simp [unitsFrom]
  | cons c cols ih =>
    intro i j
    cases j with
    | zero => simp [unitsFrom]
    | succ j =>
      simp only [unitsFrom, List.getElem?_cons_succ, ih]
      have : i + 1 + j = i + (j + 1) := by omega
      rw [this]

/-- Three consecutive entries of a list, read as a sublist. -/
theorem drop_take_three {α : Type} (l : List α) (n : Nat) (h : n + 3 ≤ l.length) :
    ∃ a b c, l[n]? = some a ∧ l[n + 1]? = some b ∧ l[n + 2]? = some c
      ∧ (l.drop n).take 3 = [a, b, c] := by
  have h0 : n < l.length := by omega
  have h1 : n + 1 < l.length := by omega
  have h2 : n + 2 < l.length := by omega
  refine ⟨l[n], l[n + 1], l[n + 2], List.getElem?_eq_getElem h0,
    List.getElem?_eq_getElem h1, List.getElem?_eq_getElem h2, ?_⟩
  rw [List.drop_eq_getElem_cons h0, List.drop_eq_getElem_cons h1,
    List.drop_eq_getElem_cons h2]
  rfl

/-- The renderer on the unrolled loop: as long as every first-vertex index fits
`GLint` and the store holds the triples, each pair of calls yields its unit. -/
theorem drawUnits_loopCalls (colorLoc : Int) (rest : List (GLCall F))
    (tail : List (DrawUnit F))
    (hrest : ∀ st : GLState F, drawUnits colorLoc st rest = some tail)
    (cols : List (vec4 F)) :
    ∀ (i : Nat) (st : GLState F),
      (i + cols.length) * 3 ≤ st.store.length →
      i + cols.length ≤ 715827883 →
      drawUnits colorLoc st (loopCalls colorLoc cols i ++ rest)
        = some (unitsFrom st.store cols i ++ tail) := by
  induction cols with
  | nil => intro i st _ _; simpa [loopCalls, unitsFrom] using hrest st
  | cons c cols ih =>
    intro i st hstore hfit
    obtain ⟨cr, cg, cb, ca⟩ := c
    simp only [List.length_cons] at hstore hfit
    have hi : i * 3 < 2 ^ 31 := by omega
    have hcast : toGLint (i * 3) = ((i * 3 : Nat) : Int) := toGLint_of_lt _ hi
    have hnn : ¬ ((3 : Int) < 0) := by decide
    have h3 : (3 : Int).toNat = 3 := rfl
    have hok : ¬ (((i * 3 : Nat) : Int) < 0 ∨ st.store.length < i * 3 + 3) := by
      simp only [not_or, not_lt]
      exact ⟨Int.ofNat_nonneg _, by omega⟩
    have hrec := ih (i + 1) { st with inputColor := { r := cr, g := cg, b := cb, a := ca } }
      (by simpa using (by omega : (i + 1 + cols.length) * 3 ≤ st.store.length)) (by omega)
    simp only [loopCalls, List.cons_append, drawUnits, if_true, hcast, hnn, if_false,
      Int.toNat_ofNat, h3, hok, List.append_eq, hrec, unitsFrom]

/-- A draw call with a negative first index makes the renderer's result
undefined, wherever it stands in the sequence. -/
theorem drawUnits_none_of_neg_first (colorLoc : Int) (mode : Nat) (first count : Int)
    (hfirst : first < 0) (hcount : ¬ count < 0) :
    ∀ (calls : List (GLCall F)) (st : GLState F),
      GLCall.glDrawArrays mode first count ∈ calls → drawUnits colorLoc st calls = none := by
  intro calls
  induction calls with
  | nil => intro st hmem; simp at hmem
  | cons call calls ih =>
    intro st hmem
    rcases List.mem_cons.mp hmem with hhead | htail
    · subst hhead
      simp [drawUnits, hcount, hfirst]
    · cases call with
      | glBufferData target size data usage => simpa [drawUnits] using ih _ htail
      | glUniform4f location v0 v1 v2 v3 =>
        by_cases hl : location = colorLoc
        · simpa [drawUnits, hl] using ih _ htail
        · simpa [drawUnits, hl] using ih _ htail
      | glDrawArrays m f c =>
        simp only [drawUnits, ih st htail]
        split_ifs <;> rfl
      | glClearColor r g b a => simpa [drawUnits] using ih _ htail
      | glClear mask => simpa [drawUnits] using ih _ htail
      | glUniformMatrix4fv location fbw fbh => simpa [drawUnits] using ih _ htail
      | glBindBuffer target buffer => simpa [drawUnits] using ih _ htail
      | glBindVertexArray array => simpa [drawUnits] using ih _ htail
      | glfwSwapBuffers => simpa [drawUnits] using ih _ htail

/-- The unrolled loop contains the draw call of each of its indices. -/
theorem mem_loopCalls (colorLoc : Int) (cols : List (vec4 F)) :
    ∀ (i j : Nat), j < cols.length →
      GLCall.glDrawArrays GL_TRIANGLES (toGLint ((i + j) * 3)) 3 ∈ loopCalls colorLoc cols i := by
  induction cols with
  | nil => intro i j hj; simp at hj
  | cons c cols ih =>
    intro i j hj
    cases j with
    | zero => simp [loopCalls]
    | succ j =>
      have := ih (i + 1) j (by simpa using hj)
      have e : i + 1 + j = i + (j + 1) := by omega
      rw [e] at this
      simp [loopCalls, this]

/-- The calls of one frame, written out, for a state whose colour reads are in
bounds. -/
theorem renderFrame_eq [OfScientific F] (h : Handles) (fbw fbh : Int) (s : Accumulator F)
    (hc : s.g_vertices.length / 3 ≤ s.g_colors.length) :
    renderFrame h fbw fbh s =
      some ([GLCall.glClearColor 0.05 0.05 0.08 1.0,
             GLCall.glClear GL_COLOR_BUFFER_BIT,
             GLCall.glUniformMatrix4fv h.projLoc fbw fbh,
             GLCall.glBindBuffer GL_ARRAY_BUFFER h.gVBO,
             (if ¬ s.g_vertices.isEmpty then
                GLCall.glBufferData GL_ARRAY_BUFFER (s.g_vertices.length * sizeof_vec3)
                  (some s.g_vertices) GL_DYNAMIC_DRAW
              else
                GLCall.glBufferData GL_ARRAY_BUFFER 0 none GL_DYNAMIC_DRAW),
             GLCall.glBindVertexArray h.gVAO]
            ++ loopCalls h.colorLoc (s.g_colors.take (s.g_vertices.length / 3)) 0
            ++ [GLCall.glBindVertexArray 0, GLCall.glfwSwapBuffers], s) := by
  have := drawLoop_eq_loopCalls h.colorLoc s.g_colors (s.g_vertices.length / 3) 0 (by omega)
  simp only [renderFrame, this, List.drop_zero]

/-- The renderer on the calls that precede the loop: only the upload matters,
and it makes the store equal to `g_vertices`. -/
theorem drawUnits_frame_prefix [OfScientific F] (h : Handles) (fbw fbh : Int)
    (s : Accumulator F) (st : GLState F) (rest : List (GLCall F)) :
    drawUnits h.colorLoc st
      ([GLCall.glClearColor 0.05 0.05 0.08 1.0,
        GLCall.glClear GL_COLOR_BUFFER_BIT,
        GLCall.glUniformMatrix4fv h.projLoc fbw fbh,
        GLCall.glBindBuffer GL_ARRAY_BUFFER h.gVBO,
        (if ¬ s.g_vertices.isEmpty then
           GLCall.glBufferData GL_ARRAY_BUFFER (s.g_vertices.length * sizeof_vec3)
             (some s.g_vertices) GL_DYNAMIC_DRAW
         else
           GLCall.glBufferData GL_ARRAY_BUFFER 0 none GL_DYNAMIC_DRAW),
        GLCall.glBindVertexArray h.gVAO] ++ rest)
      = drawUnits h.colorLoc { st with store := s.g_vertices } rest := by
  cases hv : s.g_vertices with
  | nil => simp [drawUnits]
  | cons v vs => simp [drawUnits]

end RenderLemmas

/-! ## The claims about the render section -/

section RenderClaims

variable {D F : Type} [OfScientific F]

/-- C7, amended. For every state `s` reached from the empty accumulator by
clicks, with `T = g_vertices.size() / 3` committed triangles and `T` at most
715827883 (so that every first-vertex index `3 * i` fits the `GLint` argument
of `glDrawArrays`), one frame of the render loop completes and, from any
renderer state, produces exactly `T` draw units in commit order: unit `i` has
the colour `g_colors[i]` and the vertices `g_vertices[3i]`, `g_vertices[3i+1]`,
`g_vertices[3i+2]`. With `T = 0` there is no unit. -/
theorem C7_frame_draw_units (toFloat : D → F) (h : Handles) (fbw fbh : Int)
    (st : GLState F) (cs : List (Click D F)) (s : Accumulator F)
    (hs : s = clicks toFloat cs Accumulator.empty)
    (hfit : s.g_vertices.length / 3 ≤ 715827883) :
    ∃ (calls : List (GLCall F)) (units : List (DrawUnit F)),
      renderFrame h fbw fbh s = some (calls, s)
      ∧ drawUnits h.colorLoc st calls = some units
      ∧ units.length = s.g_vertices.length / 3
      ∧ ∀ i, i < s.g_vertices.length / 3 →
          ∃ (c : vec4 F) (v0 v1 v2 : vec3 F),
            s.g_colors[i]? = some c
            ∧ s.g_vertices[3 * i]? = some v0
            ∧ s.g_vertices[3 * i + 1]? = some v1
            ∧ s.g_vertices[3 * i + 2]? = some v2
            ∧ units[i]? = some { color := c, vertices := [v0, v1, v2] } := by
  obtain ⟨_, _, h3, h4, _⟩ := clicks_invariant toFloat cs
  rw [← hs] at h3 h4
  have hT : s.g_vertices.length / 3 = s.g_colors.length := by omega
  have htake : s.g_colors.take (s.g_vertices.length / 3) = s.g_colors := by
    rw [hT]; exact List.take_length _
  refine ⟨_, unitsFrom s.g_vertices s.g_colors 0, renderFrame_eq h fbw fbh s (by omega), ?_, ?_, ?_⟩
  · rw [List.append_assoc, drawUnits_frame_prefix, htake]
    have := drawUnits_loopCalls h.colorLoc
      [GLCall.glBindVertexArray 0, GLCall.glfwSwapBuffers] []
      (fun st => by simp [drawUnits]) s.g_colors 0 { st with store := s.g_vertices }
      (by simp only [Nat.zero_add]; omega) (by omega)
    simpa using this
  · rw [unitsFrom_length, hT]
  · intro i hi
    have hci : i < s.g_colors.length := by omega
    obtain ⟨v0, v1, v2, e0, e1, e2, e3⟩ := drop_take_three s.g_vertices (3 * i) (by omega)
    refine ⟨s.g_colors[i], v0, v1, v2, List.getElem?_eq_getElem hci, e0, e1, e2, ?_⟩
    rw [unitsFrom_getElem?, List.getElem?_eq_getElem hci]
    simp only [Option.map_some', Nat.zero_add]
    rw [Nat.mul_comm i 3, e3]

/-- C8. Rendering is a pure read: whenever the render section of a frame
completes it leaves `g_pending`, `g_vertices` and `g_colors` as they were; it
completes in every state whose colour reads are in bounds, and so in every
state reached from the empty accumulator by clicks. -/
theorem C8_render_is_pure_read (toFloat : D → F) (h : Handles) (fbw fbh : Int)
    (s : Accumulator F) (cs : List (Click D F)) :
    (∀ r, renderFrame h fbw fbh s = some r → r.2 = s)
    ∧ (s.g_vertices.length / 3 ≤ s.g_colors.length →
        ∃ calls, renderFrame h fbw fbh s = some (calls, s))
    ∧ ∃ calls, renderFrame h fbw fbh (clicks toFloat cs Accumulator.empty)
        = some (calls, clicks toFloat cs Accumulator.empty) := by
  refine ⟨?_, ?_, ?_⟩
  · intro r hr
    simp only [renderFrame] at hr
    cases hd : drawLoop h.colorLoc s.g_colors (s.g_vertices.length / 3) 0 with
    | none => rw [hd] at hr; simp at hr
    | some loop =>
      rw [hd] at hr
      simp only [Option.some.injEq] at hr
      rw [← hr]
  · intro hc
    exact ⟨_, renderFrame_eq h fbw fbh s hc⟩
  · obtain ⟨_, _, h3, h4, _⟩ := clicks_invariant toFloat cs
    exact ⟨_, renderFrame_eq h fbw fbh _ (by omega)⟩

/-- C7, as stated, fails once a first-vertex index no longer fits `GLint`.
After 2147483652 clicks there are 715827884 triangles; the frame completes,
but the draw call of the last triangle is issued with first index -2147483647
instead of 2147483649, for which the renderer defines no result: the frame
does not produce the 715827884 draw units the claim describes. -/
theorem C7_counterexample_first_index_wraps :
    ∃ calls : List (GLCall ℚ),
      renderFrame sampleHandles 800 600 (clicks id manyClicks Accumulator.empty)
        = some (calls, clicks id manyClicks Accumulator.empty)
      ∧ (clicks id manyClicks Accumulator.empty).g_vertices.length / 3 = 715827884
      ∧ GLCall.glDrawArrays GL_TRIANGLES (-2147483647) 3 ∈ calls
      ∧ drawUnits sampleHandles.colorLoc sampleGLState calls = none := by
  obtain ⟨_, _, h3, h4, _⟩ := clicks_invariant (id : ℚ → ℚ) manyClicks
  have hlen : manyClicks.length = 2147483652 := List.length_replicate _ _
  rw [hlen] at h3 h4
  generalize clicks id manyClicks Accumulator.empty = s at h3 h4 ⊢
  have hT : s.g_vertices.length / 3 = 715827884 := by omega
  have hC : s.g_colors.length = 715827884 := by omega
  have hmem : GLCall.glDrawArrays GL_TRIANGLES (-2147483647) 3
      ∈ loopCalls sampleHandles.colorLoc (s.g_colors.take (s.g_vertices.length / 3)) 0 := by
    have hm := mem_loopCalls sampleHandles.colorLoc
      (s.g_colors.take (s.g_vertices.length / 3)) 0 715827883
      (by rw [List.length_take, hT, hC]; decide)
    have e : toGLint ((0 + 715827883) * 3) = -2147483647 := by decide
    rwa [e] at hm
  refine ⟨_, renderFrame_eq sampleHandles 800 600 s (by omega), hT, ?_, ?_⟩
  · exact List.mem_append_left _ (List.mem_append_right _ hmem)
  · exact drawUnits_none_of_neg_first _ GL_TRIANGLES (-2147483647) 3 (by decide) (by decide)
      _ _ (List.mem_append_left _ (List.mem_append_right _ hmem))

/-- Witness of C7, amended, on scenario A: one triangle, one draw unit. -/
theorem C7_frame_draw_units_witness :
    (clicks id scenarioA Accumulator.empty = clicks id scenarioA Accumulator.empty)
    ∧ (clicks id scenarioA Accumulator.empty).g_vertices.length / 3 ≤ 715827883
    ∧ ∃ (calls : List (GLCall ℚ)) (units : List (DrawUnit ℚ)),
      renderFrame sampleHandles 800 600 (clicks id scenarioA Accumulator.empty)
        = some (calls, clicks id scenarioA Accumulator.empty)
      ∧ drawUnits sampleHandles.colorLoc sampleGLState calls = some units
      ∧ units.length = (clicks id scenarioA Accumulator.empty).g_vertices.length / 3
      ∧ ∀ i, i < (clicks id scenarioA Accumulator.empty).g_vertices.length / 3 →
          ∃ (c : vec4 ℚ) (v0 v1 v2 : vec3 ℚ),
            (clicks id scenarioA Accumulator.empty).g_colors[i]? = some c
            ∧ (clicks id scenarioA Accumulator.empty).g_vertices[3 * i]? = some v0
            ∧ (clicks id scenarioA Accumulator.empty).g_vertices[3 * i + 1]? = some v1
            ∧ (clicks id scenarioA Accumulator.empty).g_vertices[3 * i + 2]? = some v2
            ∧ units[i]? = some { color := c, vertices := [v0, v1, v2] } :=
  ⟨rfl, by decide,
    C7_frame_draw_units id sampleHandles 800 600 sampleGLState scenarioA
      (clicks id scenarioA Accumulator.empty) rfl (by decide)⟩

/-- Witness of C8 on scenario A: the colour reads are in bounds and the frame
leaves the accumulator as it was. -/
theorem C8_render_is_pure_read_witness :
    (clicks id scenarioA Accumulator.empty).g_vertices.length / 3
        ≤ (clicks id scenarioA Accumulator.empty).g_colors.length
    ∧ ∃ calls : List (GLCall ℚ),
        renderFrame sampleHandles 800 600 (clicks id scenarioA Accumulator.empty)
          = some (calls, clicks id scenarioA Accumulator.empty) :=
  ⟨by decide,
    (C8_render_is_pure_read id sampleHandles 800 600
      (clicks id scenarioA Accumulator.empty) scenarioA).2.1 (by decide)⟩

/-- Scenario C: with no click there is no triangle, no pending point, and a
frame produces no draw unit. -/
theorem scenarioC_no_draw_units :
    (clicks (id : ℚ → ℚ) [] Accumulator.empty).g_vertices = []
    ∧ (clicks (id : ℚ → ℚ) [] Accumulator.empty).g_pending = []
    ∧ ∃ calls : List (GLCall ℚ),
        renderFrame sampleHandles 800 600 (clicks (id : ℚ → ℚ) [] Accumulator.empty)
          = some (calls, Accumulator.empty)
        ∧ drawUnits sampleHandles.colorLoc sampleGLState calls = some [] := by
  refine ⟨rfl, rfl, _, rfl, ?_⟩
  simp [drawUnits]

end RenderClaims

/-! ## The claims about the colours -/

section ColorClaims

variable {D F : Type} [OfScientific F]

theorem mem_colors_onClick (toFloat : D → F) (c : Click D F) (s : Accumulator F)
    (col : vec4 F) (hcol : col ∈ (onClick toFloat c s).g_colors) :
    col ∈ s.g_colors ∨ col = randomColor c.rnd := by
  by_cases hp : s.g_pending.length = 2
  · obtain ⟨p0, p1, hpend⟩ : ∃ p0 p1, s.g_pending = [p0, p1] := by
      match hs : s.g_pending, hp with
      | [a, b], _ => exact ⟨a, b, rfl⟩
    rw [onClick_of_two toFloat c s p0 p1 hpend] at hcol
    simpa using hcol
  · rw [onClick_of_ne_two toFloat c s hp] at hcol
    exact Or.inl hcol

/-- Every stored colour was either there before the clicks or is the colour
built from the draws of one of them. -/
theorem mem_colors_clicks (toFloat : D → F) (cs : List (Click D F)) (s : Accumulator F)
    (col : vec4 F) (hcol : col ∈ (clicks toFloat cs s).g_colors) :
    col ∈ s.g_colors ∨ ∃ c ∈ cs, col = randomColor c.rnd := by
  induction cs using List.reverseRecOn with
  | nil => exact Or.inl hcol
  | append_singleton l c ih =>
    rw [clicks_snoc] at hcol
    rcases mem_colors_onClick toFloat c _ col hcol with hprev | hnew
    · rcases ih hprev with h0 | ⟨d, hd, hcd⟩
      · exact Or.inl h0
      · exact Or.inr ⟨d, List.mem_append_left _ hd, hcd⟩
    · exact Or.inr ⟨c, by simp, hnew⟩

/-- C9. For every sequence of clicks and every outcome of the random source,
every colour stored in `g_colors` has alpha equal to `1.0f`. -/
theorem C9_alpha_is_one (toFloat : D → F) (cs : List (Click D F)) (col : vec4 F)
    (hcol : col ∈ (clicks toFloat cs Accumulator.empty).g_colors) :
    col.a = (1.0 : F) := by
  rcases mem_colors_clicks toFloat cs _ col hcol with h0 | ⟨c, _, hc⟩
  · simp [Accumulator.empty] at h0
  · rw [hc]; rfl

/-- Witness of C9 on scenario A. -/
theorem C9_alpha_is_one_witness :
    ({ r := 0.5, g := 0.25, b := 0.75, a := 1.0 } : vec4 ℚ)
        ∈ (clicks id scenarioA Accumulator.empty).g_colors
    ∧ ({ r := 0.5, g := 0.25, b := 0.75, a := 1.0 } : vec4 ℚ).a = (1.0 : ℚ) :=
  ⟨by simp [clicks, onClick, mouse_button_callback, scenarioA, Accumulator.empty, randomColor],
    C9_alpha_is_one id scenarioA _
      (by simp [clicks, onClick, mouse_button_callback, scenarioA, Accumulator.empty,
        randomColor])⟩

/-- C10, amended. For every sequence of clicks, if every value returned by the
distribution lies in its half-open range, `0.2f ≤ x < 1.0f`, then the R, G and
B components of every colour stored in `g_colors` lie in that same range: at
least `0.2f` and strictly below `1.0f`. -/
theorem C10_components_in_half_open_range [LE F] [LT F] (toFloat : D → F)
    (cs : List (Click D F)) (hdist : ∀ c ∈ cs, c.rnd.inRange) (col : vec4 F)
    (hcol : col ∈ (clicks toFloat cs Accumulator.empty).g_colors) :
    ((0.2 : F) ≤ col.r ∧ col.r < (1.0 : F))
    ∧ ((0.2 : F) ≤ col.g ∧ col.g < (1.0 : F))
    ∧ ((0.2 : F) ≤ col.b ∧ col.b < (1.0 : F)) := by
  rcases mem_colors_clicks toFloat cs _ col hcol with h0 | ⟨c, hmem, hc⟩
  · simp [Accumulator.empty] at h0
  · rw [hc]
    exact hdist c hmem

/-- C10, as stated, fails at the lower bound: when the distribution returns
`0.2f`, which its range includes, the stored colour has R equal to `0.2f`, not
strictly above it. -/
theorem C10_counterexample_lower_bound_attained :
    (∀ c ∈ lowerBoundClicks, c.rnd.inRange)
    ∧ ∃ col ∈ (clicks id lowerBoundClicks Accumulator.empty).g_colors,
        ¬ ((0.2 : ℚ) < col.r ∧ col.r < (1.0 : ℚ)) := by
  refine ⟨?_, { r := 0.2, g := 0.2, b := 0.2, a := 1.0 }, ?_, ?_⟩
  · intro c hc
    simp only [lowerBoundClicks, List.mem_cons, List.mem_singleton, List.not_mem_nil,
      or_false] at hc
    rcases hc with rfl | rfl | rfl <;>
      (simp only [Draws.inRange, inDistRange]; norm_num)
  · simp [clicks, onClick, mouse_button_callback, lowerBoundClicks, Accumulator.empty,
      randomColor]
  · norm_num

/-- Witness of C10, amended, on scenario A. -/
theorem C10_components_in_half_open_range_witness :
    (∀ c ∈ scenarioA, c.rnd.inRange)
    ∧ ({ r := 0.5, g := 0.25, b := 0.75, a := 1.0 } : vec4 ℚ)
        ∈ (clicks id scenarioA Accumulator.empty).g_colors
    ∧ (((0.2 : ℚ) ≤ 0.5 ∧ (0.5 : ℚ) < 1.0)
      ∧ ((0.2 : ℚ) ≤ 0.25 ∧ (0.25 : ℚ) < 1.0)
      ∧ ((0.2 : ℚ) ≤ 0.75 ∧ (0.75 : ℚ) < 1.0)) :=
  ⟨by
      intro c hc
      simp only [scenarioA, List.mem_cons, List.mem_singleton, List.not_mem_nil,
        or_false] at hc
      rcases hc with rfl | rfl | rfl <;>
        (simp only [Draws.inRange, inDistRange]; norm_num),
    by simp [clicks, onClick, mouse_button_callback, scenarioA, Accumulator.empty, randomColor],
    C10_components_in_half_open_range id scenarioA
      (by
        intro c hc
        simp only [scenarioA, List.mem_cons, List.mem_singleton, List.not_mem_nil,
          or_false] at hc
        rcases hc with rfl | rfl | rfl <;>
          (simp only [Draws.inRange, inDistRange]; norm_num))
      { r := 0.5, g := 0.25, b := 0.75, a := 1.0 }
      (by simp [clicks, onClick, mouse_button_callback, scenarioA, Accumulator.empty,
        randomColor])⟩

end ColorClaims

/-! ## The claims about a single event -/

section EventClaims

variable {D F : Type} [OfScientific F]

/-- Every click moves exactly one point into the accumulator. -/
theorem onClick_total_length (toFloat : D → F) (c : Click D F) (s : Accumulator F) :
    (onClick toFloat c s).g_pending.length + (onClick toFloat c s).g_vertices.length
      = s.g_pending.length + s.g_vertices.length + 1 := by
  by_cases hp : s.g_pending.length = 2
  · obtain ⟨p0, p1, hpend⟩ : ∃ p0 p1, s.g_pending = [p0, p1] := by
      match hs : s.g_pending, hp with
      | [a, b], _ => exact ⟨a, b, rfl⟩
    rw [onClick_of_two toFloat c s p0 p1 hpend]
    simp [hpend]
    omega
  · rw [onClick_of_ne_two toFloat c s hp]
    simp
    omega

/-- C12. The accumulator never rejects a click and validates nothing: two click
sequences of the same length, whatever their coordinates, leave the same
numbers of pending points, committed vertices and colours, and every click,
in any state, increases `g_pending.size() + g_vertices.size()` by exactly 1. -/
theorem C12_no_click_rejected (toFloat : D → F) (cs ds : List (Click D F))
    (hlen : cs.length = ds.length) :
    ((clicks toFloat cs Accumulator.empty).g_pending.length
        = (clicks toFloat ds Accumulator.empty).g_pending.length
      ∧ (clicks toFloat cs Accumulator.empty).g_vertices.length
        = (clicks toFloat ds Accumulator.empty).g_vertices.length
      ∧ (clicks toFloat cs Accumulator.empty).g_colors.length
        = (clicks toFloat ds Accumulator.empty).g_colors.length)
    ∧ ∀ (c : Click D F) (s : Accumulator F),
        (onClick toFloat c s).g_pending.length + (onClick toFloat c s).g_vertices.length
          = s.g_pending.length + s.g_vertices.length + 1 := by
  obtain ⟨_, a2, a3, a4, _⟩ := clicks_invariant toFloat cs
  obtain ⟨_, b2, b3, b4, _⟩ := clicks_invariant toFloat ds
  refine ⟨⟨?_, ?_, ?_⟩, onClick_total_length toFloat⟩
  · rw [a2, b2, hlen]
  · rw [a3, b3, hlen]
  · rw [a4, b4, hlen]

/-- Witness of C12: scenario A against three clicks with negative, repeated
and out-of-window coordinates. -/
theorem C12_no_click_rejected_witness :
    scenarioA.length = degenerateClicks.length
    ∧ ((clicks id scenarioA Accumulator.empty).g_pending.length
        = (clicks id degenerateClicks Accumulator.empty).g_pending.length
      ∧ (clicks id scenarioA Accumulator.empty).g_vertices.length
        = (clicks id degenerateClicks Accumulator.empty).g_vertices.length
      ∧ (clicks id scenarioA Accumulator.empty).g_colors.length
        = (clicks id degenerateClicks Accumulator.empty).g_colors.length)
    ∧ ∀ (c : Click ℚ ℚ) (s : Accumulator ℚ),
        (onClick id c s).g_pending.length + (onClick id c s).g_vertices.length
          = s.g_pending.length + s.g_vertices.length + 1 :=
  ⟨by decide, C12_no_click_rejected id scenarioA degenerateClicks (by decide)⟩

/-- C13. Only a press of the left button is a click: for every accumulator
state and every mouse event whose button is not `GLFW_MOUSE_BUTTON_LEFT` or
whose action is not `GLFW_PRESS`, `mouse_button_callback` leaves `g_pending`,
`g_vertices` and `g_colors` unchanged. -/
theorem C13_other_events_ignored (toFloat : D → F) (xpos ypos : D) (rnd : Draws F)
    (button action mods : Int) (s : Accumulator F)
    (hev : button ≠ GLFW_MOUSE_BUTTON_LEFT ∨ action ≠ GLFW_PRESS) :
    mouse_button_callback toFloat xpos ypos rnd button action mods s = s := by
  unfold mouse_button_callback
  rw [if_neg]
  rintro ⟨hb, ha⟩
  rcases hev with h | h
  · exact h hb
  · exact h ha

/-- Witness of C13: a press of the right button after two clicks of scenario A. -/
theorem C13_other_events_ignored_witness :
    (GLFW_MOUSE_BUTTON_RIGHT ≠ GLFW_MOUSE_BUTTON_LEFT ∨ GLFW_PRESS ≠ GLFW_PRESS)
    ∧ mouse_button_callback id (15 : ℚ) (20 : ℚ)
        ({ red := 0.5, green := 0.25, blue := 0.75 } : Draws ℚ)
        GLFW_MOUSE_BUTTON_RIGHT GLFW_PRESS 0
        (clicks id (scenarioA.take 2) Accumulator.empty)
      = clicks id (scenarioA.take 2) Accumulator.empty :=
  ⟨by decide,
    C13_other_events_ignored id 15 20 _ GLFW_MOUSE_BUTTON_RIGHT GLFW_PRESS 0 _ (by decide)⟩

/-- A release of the left button is ignored as well. -/
theorem left_release_ignored :
    mouse_button_callback id (15 : ℚ) (20 : ℚ)
        ({ red := 0.5, green := 0.25, blue := 0.75 } : Draws ℚ)
        GLFW_MOUSE_BUTTON_LEFT GLFW_RELEASE 0
        (clicks id (scenarioA.take 2) Accumulator.empty)
      = clicks id (scenarioA.take 2) Accumulator.empty := by
  rfl

/-- C14. `key_callback` requests the window to close exactly on a press of the
Escape key: for every key and action, the close flag is `GL_TRUE` after the
callback when `key == GLFW_KEY_ESCAPE` and `action == GLFW_PRESS`, the window is
left unchanged for every other key or action, and so a flag that was not set
becomes set if and only if the event is a press of Escape. -/
theorem C14_escape_press_requests_close (window : GLFWwindow)
    (key scancode action mode : Int) :
    ((key = GLFW_KEY_ESCAPE ∧ action = GLFW_PRESS) →
        (key_callback window key scancode action mode).shouldClose = GL_TRUE)
    ∧ (¬ (key = GLFW_KEY_ESCAPE ∧ action = GLFW_PRESS) →
        key_callback window key scancode action mode = window)
    ∧ (window.shouldClose ≠ GL_TRUE →
        ((key_callback window key scancode action mode).shouldClose = GL_TRUE
          ↔ (key = GLFW_KEY_ESCAPE ∧ action = GLFW_PRESS))) := by
  by_cases h : key = GLFW_KEY_ESCAPE ∧ action = GLFW_PRESS
  · have e : (key_callback window key scancode action mode).shouldClose = GL_TRUE := by
      simp [key_callback, h, glfwSetWindowShouldClose]
    exact ⟨fun _ => e, fun hn => absurd h hn, fun _ => ⟨fun _ => h, fun _ => e⟩⟩
  · have e : key_callback window key scancode action mode = window := by
      simp only [key_callback, if_neg h]
    refine ⟨fun hp => absurd hp h, fun _ => e, fun hw => ⟨fun hc => ?_, fun hp => absurd hp h⟩⟩
    rw [e] at hc
    exact absurd hc hw

/-- Witness of C14: Escape pressed on an open window sets the flag; Escape
released and another key pressed leave the window as it was. -/
theorem C14_escape_press_requests_close_witness :
    ((GLFW_KEY_ESCAPE = GLFW_KEY_ESCAPE ∧ GLFW_PRESS = GLFW_PRESS)
      ∧ (key_callback { shouldClose := 0 } GLFW_KEY_ESCAPE 9 GLFW_PRESS 0).shouldClose = GL_TRUE)
    ∧ (¬ (GLFW_KEY_ESCAPE = GLFW_KEY_ESCAPE ∧ GLFW_RELEASE = GLFW_PRESS)
      ∧ key_callback { shouldClose := 0 } GLFW_KEY_ESCAPE 9 GLFW_RELEASE 0
          = { shouldClose := 0 })
    ∧ (¬ (GLFW_KEY_SPACE = GLFW_KEY_ESCAPE ∧ GLFW_PRESS = GLFW_PRESS)
      ∧ key_callback { shouldClose := 0 } GLFW_KEY_SPACE 65 GLFW_PRESS 0
          = { shouldClose := 0 }) :=
  ⟨⟨by decide,
     (C14_escape_press_requests_close { shouldClose := 0 } GLFW_KEY_ESCAPE 9 GLFW_PRESS 0).1
       (by decide)⟩,
   ⟨by decide,
     (C14_escape_press_requests_close { shouldClose := 0 } GLFW_KEY_ESCAPE 9 GLFW_RELEASE 0).2.1
       (by decide)⟩,
   ⟨by decide,
     (C14_escape_press_requests_close { shouldClose := 0 } GLFW_KEY_SPACE 65 GLFW_PRESS 0).2.1
       (by decide)⟩⟩

end EventClaims

/-! ## The calls of a frame, by position -/

section FrameCalls

variable {F : Type}

/-- Reading a concatenation past its first part reads the second part. -/
theorem getElem?_append_add_length {α : Type} (pre rest : List α) (k : Nat) :
    (pre ++ rest)[pre.length + k]? = rest[k]? := by
  rw [List.getElem?_append_right (Nat.le_add_right _ _), Nat.add_sub_cancel_left]

theorem loopCalls_length (colorLoc : Int) (cols : List (vec4 F)) :
    ∀ i, (loopCalls colorLoc cols i).length = 2 * cols.length := by
  induction cols with
  | nil => intro i; rfl
  | cons c cols ih =>
    intro i
    simp only [loopCalls, List.length_cons, ih]
    omega

/-- Position `2j` of the unrolled loop is the colour upload of its `j`-th
colour, position `2j + 1` the draw call of loop index `i + j`. -/
theorem loopCalls_getElem? (colorLoc : Int) (cols : List (vec4 F)) :
    ∀ (i j : Nat), j < cols.length →
      (loopCalls colorLoc cols i)[2 * j]?
          = cols[j]?.map (fun c => GLCall.glUniform4f colorLoc c.r c.g c.b c.a)
      ∧ (loopCalls colorLoc cols i)[2 * j + 1]?
          = some (GLCall.glDrawArrays GL_TRIANGLES (toGLint ((i + j) * 3)) 3) := by
  induction cols with
  | nil => intro i j hj; simp at hj
  | cons c cols ih =>
    intro i j hj
    cases j with
    | zero => simp [loopCalls]
    | succ j =>
      obtain ⟨e0, e1⟩ := ih (i + 1) j (by simpa using hj)
      have a0 : 2 * (j + 1) = 2 * j + 1 + 1 := by omega
      have a1 : i + 1 + j = i + (j + 1) := by omega
      rw [a1] at e1
      refine ⟨?_, ?_⟩
      · rw [a0]
        simp only [loopCalls, List.getElem?_cons_succ, e0]
      · rw [a0]
        simp only [loopCalls, List.getElem?_cons_succ, e1]

/-- The calls of one frame at the positions of loop index `i`: the upload of
`g_vertices` stands at position 4, the colour upload of index `i` at position
`6 + 2i` and its draw call, with first index `static_cast<GLint>(i * 3)`, at
position `6 + 2i + 1`. -/
theorem renderFrame_calls_at [OfScientific F] (h : Handles) (fbw fbh : Int) (s : Accumulator F)
    (hc : s.g_vertices.length / 3 = s.g_colors.length) (i : Nat)
    (hi : i < s.g_vertices.length / 3) :
    ∃ calls : List (GLCall F),
      renderFrame h fbw fbh s = some (calls, s)
      ∧ calls[4]? = some (GLCall.glBufferData GL_ARRAY_BUFFER
          (s.g_vertices.length * sizeof_vec3) (some s.g_vertices) GL_DYNAMIC_DRAW)
      ∧ calls[6 + 2 * i]?
          = s.g_colors[i]?.map (fun c => GLCall.glUniform4f h.colorLoc c.r c.g c.b c.a)
      ∧ calls[6 + 2 * i + 1]?
          = some (GLCall.glDrawArrays GL_TRIANGLES (toGLint (i * 3)) 3) := by
  have htake : s.g_colors.take (s.g_vertices.length / 3) = s.g_colors := by
    rw [hc]; exact List.take_length _
  have hne : ¬ s.g_vertices.isEmpty = true := by
    intro he
    have : s.g_vertices.length = 0 := by simpa [List.isEmpty_iff] using he
    omega
  obtain ⟨e0, e1⟩ := loopCalls_getElem? h.colorLoc s.g_colors 0 i (by omega)
  rw [Nat.zero_add] at e1
  have hlen := loopCalls_length h.colorLoc s.g_colors 0
  refine ⟨_, renderFrame_eq h fbw fbh s (by omega), ?_, ?_, ?_⟩
  · simp [hne]
  · rw [htake, List.append_assoc]
    refine (getElem?_append_add_length _ _ (2 * i)).trans ?_
    rw [List.getElem?_append_left (by omega)]
    exact e0
  · rw [htake, List.append_assoc, Nat.add_assoc]
    refine (getElem?_append_add_length _ _ (2 * i + 1)).trans ?_
    rw [List.getElem?_append_left (by omega)]
    exact e1

end FrameCalls

/-! ## The claim about render-loop indexing -/

section IndexingClaims

variable {D F : Type} [OfScientific F]

/-- C16, amended. In every state reached from the empty accumulator by clicks,
for every loop index `i < g_vertices.size() / 3`: the read `g_colors[i]` is in
bounds; the frame uploads `g_vertices` and issues, for index `i`, the colour of
`g_colors[i]` and the call `glDrawArrays(GL_TRIANGLES,
static_cast<GLint>(i * 3), 3)`; and, provided `3i < 2^31` (so that the index
fits `GLint`), the first index of that call is `3i` and the drawn range
`[3i, 3i + 3)` lies within the uploaded vertex list. -/
theorem C16_render_indexing_safe_within_GLint (toFloat : D → F) (h : Handles)
    (fbw fbh : Int) (cs : List (Click D F)) (i : Nat)
    (hi : i < (clicks toFloat cs Accumulator.empty).g_vertices.length / 3) :
    i < (clicks toFloat cs Accumulator.empty).g_colors.length
    ∧ ∃ (calls : List (GLCall F)) (c : vec4 F) (first : Int),
        renderFrame h fbw fbh (clicks toFloat cs Accumulator.empty)
          = some (calls, clicks toFloat cs Accumulator.empty)
        ∧ calls[4]? = some (GLCall.glBufferData GL_ARRAY_BUFFER
            ((clicks toFloat cs Accumulator.empty).g_vertices.length * sizeof_vec3)
            (some (clicks toFloat cs Accumulator.empty).g_vertices) GL_DYNAMIC_DRAW)
        ∧ (clicks toFloat cs Accumulator.empty).g_colors[i]? = some c
        ∧ calls[6 + 2 * i]? = some (GLCall.glUniform4f h.colorLoc c.r c.g c.b c.a)
        ∧ calls[6 + 2 * i + 1]? = some (GLCall.glDrawArrays GL_TRIANGLES first 3)
        ∧ first = toGLint (i * 3)
        ∧ (i * 3 < 2 ^ 31 →
            first = ((3 * i : Nat) : Int)
            ∧ 0 ≤ first
            ∧ first + 3 ≤ ((clicks toFloat cs Accumulator.empty).g_vertices.length : Int)) := by
  obtain ⟨_, _, h3, h4, _⟩ := clicks_invariant toFloat cs
  have hci : i < (clicks toFloat cs Accumulator.empty).g_colors.length := by omega
  obtain ⟨calls, e, eup, ecol, edraw⟩ :=
    renderFrame_calls_at h fbw fbh (clicks toFloat cs Accumulator.empty) (by omega) i hi
  refine ⟨hci, calls, (clicks toFloat cs Accumulator.empty).g_colors[i], toGLint (i * 3),
    e, eup, List.getElem?_eq_getElem hci, ?_, edraw, rfl, ?_⟩
  · rw [ecol, List.getElem?_eq_getElem hci]
    rfl
  · intro hfit
    rw [toGLint_of_lt _ hfit]
    refine ⟨by rw [Nat.mul_comm], Int.ofNat_nonneg _, ?_⟩
    omega

/-- C16, as stated, fails once `3i` no longer fits `GLint`.  After 2147483652
clicks the loop index 715827883 is below `g_vertices.size() / 3`, and the draw
call the frame issues for it has first index -2147483647: the range it draws,
`[-2147483647, -2147483644)`, does not lie within the uploaded vertex list. -/
theorem C16_counterexample_drawn_range_wraps :
    715827883 < (clicks id manyClicks Accumulator.empty).g_vertices.length / 3
    ∧ ∃ calls : List (GLCall ℚ),
        renderFrame sampleHandles 800 600 (clicks id manyClicks Accumulator.empty)
          = some (calls, clicks id manyClicks Accumulator.empty)
        ∧ calls[6 + 2 * 715827883 + 1]?
            = some (GLCall.glDrawArrays GL_TRIANGLES (-2147483647) 3)
        ∧ ¬ (0 ≤ (-2147483647 : Int)
            ∧ (-2147483647 : Int) + 3
                ≤ ((clicks id manyClicks Accumulator.empty).g_vertices.length : Int)) := by
  obtain ⟨_, _, h3, h4, _⟩ := clicks_invariant (id : ℚ → ℚ) manyClicks
  have hlen : manyClicks.length = 2147483652 := List.length_replicate _ _
  rw [hlen] at h3 h4
  generalize clicks id manyClicks Accumulator.empty = s at h3 h4 ⊢
  have hT : 715827883 < s.g_vertices.length / 3 := by omega
  obtain ⟨calls, e, _, _, edraw⟩ :=
    renderFrame_calls_at sampleHandles 800 600 s (by omega) 715827883 hT
  have hw : toGLint (715827883 * 3) = -2147483647 := by decide
  rw [hw] at edraw
  exact ⟨hT, calls, e, edraw, fun hneg => absurd hneg.1 (by decide)⟩

/-- Witness of C16, amended, on scenario D, loop index 1. -/
theorem C16_render_indexing_safe_within_GLint_witness :
    1 < (clicks id scenarioD Accumulator.empty).g_vertices.length / 3
    ∧ 1 * 3 < 2 ^ 31
    ∧ 1 < (clicks id scenarioD Accumulator.empty).g_colors.length
    ∧ ∃ (calls : List (GLCall ℚ)) (first : Int),
        renderFrame sampleHandles 800 600 (clicks id scenarioD Accumulator.empty)
          = some (calls, clicks id scenarioD Accumulator.empty)
        ∧ calls[6 + 2 * 1 + 1]? = some (GLCall.glDrawArrays GL_TRIANGLES first 3)
        ∧ first = ((3 * 1 : Nat) : Int)
        ∧ 0 ≤ first
        ∧ first + 3 ≤ ((clicks id scenarioD Accumulator.empty).g_vertices.length : Int) := by
  obtain ⟨hcol, calls, c, first, e, _, _, _, edraw, _, hrange⟩ :=
    C16_render_indexing_safe_within_GLint id sampleHandles 800 600 scenarioD 1 (by decide)
  obtain ⟨r1, r2, r3⟩ := hrange (by decide)
  exact ⟨by decide, by decide, hcol, calls, first, e, edraw, r1, r2, r3⟩

end IndexingClaims

end Lista2Exercicio6

/-! # The claims about the four viewports -/

namespace Lista2Exercicio5

theorem cdiv_two_of_nonneg (a : Int) (h : 0 ≤ a) : cdiv a 2 = a / 2 :=
  Int.tdiv_eq_ediv h (by decide)

theorem frameViewports_eq (VAO : Nat) (width height : Int) :
    frameViewports VAO width height =
      [ { x := 0, y := 0, width := cdiv width 2, height := cdiv height 2 },
        { x := cdiv width 2, y := 0, width := cdiv width 2, height := cdiv height 2 },
        { x := 0, y := cdiv height 2, width := cdiv width 2, height := cdiv height 2 },
        { x := cdiv width 2, y := cdiv height 2, width := cdiv width 2,
          height := cdiv height 2 } ] := rfl

/-- The number of frame viewports containing a pixel, with the four membership
tests written out. -/
theorem coverCount_frame (VAO : Nat) (width height px py : Int) (hw : 0 ≤ width)
    (hh : 0 ≤ height) :
    coverCount (frameViewports VAO width height) px py
      = (if 0 ≤ px ∧ px < width / 2 ∧ 0 ≤ py ∧ py < height / 2 then 1 else 0)
        + ((if width / 2 ≤ px ∧ px < width / 2 + width / 2 ∧ 0 ≤ py ∧ py < height / 2
              then 1 else 0)
        + ((if 0 ≤ px ∧ px < width / 2 ∧ height / 2 ≤ py ∧ py < height / 2 + height / 2
              then 1 else 0)
        + (if width / 2 ≤ px ∧ px < width / 2 + width / 2
              ∧ height / 2 ≤ py ∧ py < height / 2 + height / 2 then 1 else 0))) := by
  rw [frameViewports_eq, cdiv_two_of_nonneg width hw, cdiv_two_of_nonneg height hh]
  simp only [coverCount, List.filter_cons, List.filter_nil, Viewport.contains,
    decide_eq_true_eq, Int.zero_add]
  split_ifs <;> simp

/-- C19. For every positive framebuffer size, the four viewports set per
frame, at `(0,0)`, `(width/2,0)`, `(0,height/2)`, `(width/2,height/2)` and each
of size `width/2` x `height/2` with truncating division, are pairwise
disjoint and lie inside the framebuffer, and they cover every pixel of the
framebuffer exactly once if and only if `width` and `height` are both even. -/
theorem C19_viewports_tile_iff_even (VAO : Nat) (width height : Int)
    (hw : 0 < width) (hh : 0 < height) :
    (frameViewports VAO width height).Pairwise
        (fun a b => ∀ px py : Int, ¬ (a.contains px py = true ∧ b.contains px py = true))
    ∧ (∀ v ∈ frameViewports VAO width height, v.inside width height = true)
    ∧ ((∀ px py : Int, 0 ≤ px → px < width → 0 ≤ py → py < height →
          coverCount (frameViewports VAO width height) px py = 1)
        ↔ (width % 2 = 0 ∧ height % 2 = 0)) := by
  refine ⟨?_, ?_, ?_⟩
  · rw [frameViewports_eq, cdiv_two_of_nonneg width hw.le, cdiv_two_of_nonneg height hh.le]
    simp only [List.pairwise_cons, List.mem_cons, List.mem_singleton, List.not_mem_nil,
      Viewport.contains, decide_eq_true_eq, forall_eq_or_imp, forall_eq, List.Pairwise.nil,
      and_true, false_implies, implies_true]
    refine ⟨⟨?_, ?_, ?_⟩, ⟨?_, ?_⟩, ?_⟩ <;> intro px py <;> omega
  · rw [frameViewports_eq, cdiv_two_of_nonneg width hw.le, cdiv_two_of_nonneg height hh.le]
    simp only [List.mem_cons, List.mem_singleton, List.not_mem_nil, or_false,
      forall_eq_or_imp, forall_eq, Viewport.inside, decide_eq_true_eq]
    refine ⟨?_, ?_, ?_, ?_⟩ <;> omega
  · constructor
    · intro hcov
      constructor
      · by_contra hodd
        have := hcov (width - 1) 0 (by omega) (by omega) (by omega) hh
        rw [coverCount_frame VAO width height _ _ hw.le hh.le] at this
        split_ifs at this <;> omega
      · by_contra hodd
        have := hcov 0 (height - 1) (by omega) hw (by omega) (by omega)
        rw [coverCount_frame VAO width height _ _ hw.le hh.le] at this
        split_ifs at this <;> omega
    · rintro ⟨hwe, hhe⟩ px py hx0 hx1 hy0 hy1
      rw [coverCount_frame VAO width height _ _ hw.le hh.le]
      split_ifs <;> omega

/-- Witness of C19 on the initial window size 800 x 600. -/
theorem C19_viewports_tile_iff_even_witness :
    (0 : Int) < 800 ∧ (0 : Int) < 600
    ∧ (frameViewports 1 800 600).Pairwise
        (fun a b => ∀ px py : Int, ¬ (a.contains px py = true ∧ b.contains px py = true))
    ∧ (∀ v ∈ frameViewports 1 800 600, v.inside 800 600 = true)
    ∧ ((∀ px py : Int, 0 ≤ px → px < 800 → 0 ≤ py → py < 600 →
          coverCount (frameViewports 1 800 600) px py = 1)
        ↔ ((800 : Int) % 2 = 0 ∧ (600 : Int) % 2 = 0)) :=
  ⟨by decide, by decide, C19_viewports_tile_iff_even 1 800 600 (by decide) (by decide)⟩

/-- With an odd width the rightmost pixel column lies in no viewport: on a
framebuffer of 801 x 600 the pixel (800, 0) is covered by none of the four. -/
theorem odd_width_leaves_column_uncovered :
    coverCount (frameViewports 1 801 600) 800 0 = 0 := by
  decide

end Lista2Exercicio5

/-! # The claims about the circle -/

namespace Lista1Exercicio6

section CircleLemmas

variable {F D : Type} [OfScientific F] [Add F] [Mul F] [Mul D] [Div D]

/-- One iteration of the loop, for an index whose nine elements are in bounds,
written out: nine assignments, logged in order. -/
theorem loopBody_eq (cm : CMath F D) (i : Int) (m : FloatArray F)
    (h0 : 0 ≤ i) (h1 : i * 9 + 9 ≤ m.size) :
    loopBody cm i m = some
      { size := m.size,
        cell :=
          Function.update (Function.update (Function.update (Function.update
            (Function.update (Function.update (Function.update (Function.update
              (Function.update m.cell (i * 9) (some centerX))
              (i * 9 + 1) (some centerY))
              (i * 9 + 2) (some 0.0))
              (i * 9 + 3) (some (centerX + radius * cm.cos (theta cm i))))
              (i * 9 + 4) (some (centerY + radius * cm.sin (theta cm i))))
              (i * 9 + 5) (some 0.0))
              (i * 9 + 6) (some (centerX + radius * cm.cos (theta cm (i + 1)))))
              (i * 9 + 7) (some (centerY + radius * cm.sin (theta cm (i + 1)))))
              (i * 9 + 8) (some 0.0),
        log := m.log ++ [i * 9, i * 9 + 1, i * 9 + 2, i * 9 + 3, i * 9 + 4, i * 9 + 5,
          i * 9 + 6, i * 9 + 7, i * 9 + 8] } := by
  have b0 : 0 ≤ i * 9 := by omega
  have c0 : i * 9 < m.size := by omega
  have b1 : 0 ≤ i * 9 + 1 := by omega
  have c1 : i * 9 + 1 < m.size := by omega
  have b2 : 0 ≤ i * 9 + 2 := by omega
  have c2 : i * 9 + 2 < m.size := by omega
  have b3 : 0 ≤ i * 9 + 3 := by omega
  have c3 : i * 9 + 3 < m.size := by omega
  have b4 : 0 ≤ i * 9 + 4 := by omega
  have c4 : i * 9 + 4 < m.size := by omega
  have b5 : 0 ≤ i * 9 + 5 := by omega
  have c5 : i * 9 + 5 < m.size := by omega
  have b6 : 0 ≤ i * 9 + 6 := by omega
  have c6 : i * 9 + 6 < m.size := by omega
  have b7 : 0 ≤ i * 9 + 7 := by omega
  have c7 : i * 9 + 7 < m.size := by omega
  have b8 : 0 ≤ i * 9 + 8 := by omega
  have c8 : i * 9 + 8 < m.size := by omega
  simp [loopBody, store, b0, c0, b1, c1, b2, c2, b3, c3, b4, c4, b5, c5, b6, c6, b7, c7,
    b8, c8]

/-- One iteration of the loop: it writes its nine elements and nothing else. -/
theorem loopBody_spec (cm : CMath F D) (i : Int) (m : FloatArray F)
    (h0 : 0 ≤ i) (h1 : i * 9 + 9 ≤ m.size) :
    ∃ m1, loopBody cm i m = some m1
      ∧ m1.size = m.size
      ∧ m1.log = m.log ++ [i * 9, i * 9 + 1, i * 9 + 2, i * 9 + 3, i * 9 + 4, i * 9 + 5,
          i * 9 + 6, i * 9 + 7, i * 9 + 8]
      ∧ IterationStored cm m1 i
      ∧ ∀ j, (j < i * 9 ∨ i * 9 + 9 ≤ j) → m1.cell j = m.cell j := by
  refine ⟨_, loopBody_eq cm i m h0 h1, rfl, rfl, ?_, ?_⟩
  · simp [IterationStored, Function.update_apply]
  · intro j hj
    have n0 : j ≠ i * 9 := by omega
    have n1 : j ≠ i * 9 + 1 := by omega
    have n2 : j ≠ i * 9 + 2 := by omega
    have n3 : j ≠ i * 9 + 3 := by omega
    have n4 : j ≠ i * 9 + 4 := by omega
    have n5 : j ≠ i * 9 + 5 := by omega
    have n6 : j ≠ i * 9 + 6 := by omega
    have n7 : j ≠ i * 9 + 7 := by omega
    have n8 : j ≠ i * 9 + 8 := by omega
    simp [Function.update_apply, n0, n1, n2, n3, n4, n5, n6, n7, n8]

/-- The loop invariant: `n` iterations from index `i` on write the elements
`9i, ..., 9(i+n) - 1`, each once and in increasing order, leave in every
triangle `k` of that range the values of iteration `k`, and touch nothing
outside the range. -/
theorem fillLoop_spec (cm : CMath F D) :
    ∀ (n : Nat) (i : Int) (m : FloatArray F), 0 ≤ i → (i + n) * 9 ≤ m.size →
      ∃ m1, fillLoop cm n i m = some m1
        ∧ m1.size = m.size
        ∧ m1.log = m.log ++ (List.range (9 * n)).map (fun k : Nat => i * 9 + (k : Int))
        ∧ (∀ k : Int, i ≤ k → k < i + n → IterationStored cm m1 k)
        ∧ ∀ j, (j < i * 9 ∨ (i + n) * 9 ≤ j) → m1.cell j = m.cell j := by
  intro n
  induction n with
  | zero =>
    intro i m _ _
    refine ⟨m, rfl, rfl, by simp, ?_, fun _ _ => rfl⟩
    intro k hk1 hk2
    simp only [Nat.cast_zero, add_zero] at hk2
    omega
  | succ n ih =>
    intro i m h0 h1
    simp only [Nat.cast_succ] at h1
    obtain ⟨m1, e1, s1, l1, st1, out1⟩ := loopBody_spec cm i m h0 (by omega)
    obtain ⟨m2, e2, s2, l2, st2, out2⟩ := ih (i + 1) m1 (by omega) (by rw [s1]; omega)
    refine ⟨m2, ?_, by rw [s2, s1], ?_, ?_, ?_⟩
    · simp only [fillLoop, e1, e2]
    · rw [l2, l1, List.append_assoc]
      congr 1
      have hr : 9 * (n + 1) = 9 + 9 * n := by omega
      rw [hr, List.range_add, List.map_append, List.map_map]
      congr 1
      · simp [List.range_succ]
      · apply List.map_congr_left
        intro k _
        simp only [Function.comp_apply, Nat.cast_add, Nat.cast_ofNat]
        omega
    · intro k hk1 hk2
      simp only [Nat.cast_succ] at hk2
      by_cases hki : k = i
      · subst hki
        obtain ⟨a0, a1, a2, a3, a4, a5, a6, a7, a8⟩ := st1
        refine ⟨?_, ?_, ?_, ?_, ?_, ?_, ?_, ?_, ?_⟩
        · rw [out2 _ (Or.inl (by omega)), a0]
        · rw [out2 _ (Or.inl (by omega)), a1]
        · rw [out2 _ (Or.inl (by omega)), a2]
        · rw [out2 _ (Or.inl (by omega)), a3]
        · rw [out2 _ (Or.inl (by omega)), a4]
        · rw [out2 _ (Or.inl (by omega)), a5]
        · rw [out2 _ (Or.inl (by omega)), a6]
        · rw [out2 _ (Or.inl (by omega)), a7]
        · rw [out2 _ (Or.inl (by omega)), a8]
      · exact st2 k (by omega) (by omega)
    · intro j hj
      simp only [Nat.cast_succ] at hj
      rw [out2 j (by omega), out1 j (by omega)]

end CircleLemmas

section CircleClaims

variable {F D : Type} [OfScientific F] [Add F] [Mul F] [Mul D] [Div D]

/-- C18. The circle built by `setupGeometry` is a gap-free triangle fan: the
loop ends with every write in bounds; it writes the indices `0, ..., 899` of
the `segments * 9`-element array, each exactly once; the first vertex of every
triangle `i` (elements `9i`, `9i+1`, `9i+2`) is the centre `(0, 0, 0)`; and for
`0 ≤ i < segments - 1` the third vertex of triangle `i` (elements `9i+6`,
`9i+7`, `9i+8`) equals the second vertex of triangle `i+1` (elements
`9(i+1)+3`, `9(i+1)+4`, `9(i+1)+5`). -/
theorem C18_circle_is_gap_free_fan (cm : CMath F D) :
    ∃ vertices : FloatArray F,
      setupGeometryVertices cm = some vertices
      ∧ vertices.size = segments * 9
      ∧ vertices.log = (List.range 900).map (fun k : Nat => (k : Int))
      ∧ (∀ j : Int, vertices.log.count j = if 0 ≤ j ∧ j < segments * 9 then 1 else 0)
      ∧ (∀ i : Int, 0 ≤ i → i < segments →
          vertices.cell (9 * i) = some (0.0 : F)
          ∧ vertices.cell (9 * i + 1) = some (0.0 : F)
          ∧ vertices.cell (9 * i + 2) = some (0.0 : F))
      ∧ (∀ i : Int, 0 ≤ i → i < segments - 1 →
          ∃ x y z : F,
            vertices.cell (9 * i + 6) = some x
            ∧ vertices.cell (9 * i + 7) = some y
            ∧ vertices.cell (9 * i + 8) = some z
            ∧ vertices.cell (9 * (i + 1) + 3) = some x
            ∧ vertices.cell (9 * (i + 1) + 4) = some y
            ∧ vertices.cell (9 * (i + 1) + 5) = some z) := by
  obtain ⟨m1, e1, s1, l1, st1, _⟩ :=
    fillLoop_spec cm 100 0 (FloatArray.uninitialised (segments * 9) : FloatArray F)
      (by decide) (by show ((0 : Int) + ((100 : Nat) : Int)) * 9 ≤ segments * 9; decide)
  have hlog : m1.log = (List.range 900).map (fun k : Nat => (k : Int)) := by
    rw [l1]
    simp [FloatArray.uninitialised]
  refine ⟨m1, e1, s1, hlog, ?_, ?_, ?_⟩
  · intro j
    have hnodup : m1.log.Nodup := by
      rw [hlog]
      exact (List.nodup_range 900).map (fun a b h => by exact_mod_cast h)
    have hmem : j ∈ m1.log ↔ (0 ≤ j ∧ j < segments * 9) := by
      rw [hlog, List.mem_map]
      constructor
      · rintro ⟨k, hk, rfl⟩
        have := List.mem_range.mp hk
        simp only [segments]
        omega
      · rintro ⟨h0, h1⟩
        simp only [segments] at h1
        exact ⟨j.toNat, List.mem_range.mpr (by omega), by omega⟩
    by_cases hj : 0 ≤ j ∧ j < segments * 9
    · rw [if_pos hj]
      exact List.count_eq_one_of_mem hnodup (hmem.mpr hj)
    · rw [if_neg hj]
      exact List.count_eq_zero_of_not_mem (fun h => hj (hmem.mp h))
  · intro i h0 h1
    simp only [segments] at h1
    obtain ⟨a0, a1, a2, _⟩ := st1 i (by omega) (by simp only [Nat.cast_ofNat]; omega)
    rw [Int.mul_comm 9 i]
    exact ⟨a0, a1, a2⟩
  · intro i h0 h1
    simp only [segments] at h1
    obtain ⟨_, _, _, _, _, _, a6, a7, a8⟩ :=
      st1 i (by omega) (by simp only [Nat.cast_ofNat]; omega)
    obtain ⟨_, _, _, b3, b4, b5, _⟩ :=
      st1 (i + 1) (by omega) (by simp only [Nat.cast_ofNat]; omega)
    rw [Int.mul_comm 9 i, Int.mul_comm 9 (i + 1)]
    exact ⟨_, _, _, a6, a7, a8, b3, b4, b5⟩

/-- Witness of C18 on the sample library functions, at triangles 0 and 1. -/
theorem C18_circle_is_gap_free_fan_witness :
    (0 : Int) ≤ 0 ∧ (0 : Int) < segments - 1
    ∧ ∃ vertices : FloatArray ℚ,
        setupGeometryVertices sampleCMath = some vertices
        ∧ vertices.cell (9 * 0) = some (0.0 : ℚ)
        ∧ ∃ x y z : ℚ,
            vertices.cell (9 * 0 + 6) = some x
            ∧ vertices.cell (9 * 0 + 7) = some y
            ∧ vertices.cell (9 * 0 + 8) = some z
            ∧ vertices.cell (9 * (0 + 1) + 3) = some x
            ∧ vertices.cell (9 * (0 + 1) + 4) = some y
            ∧ vertices.cell (9 * (0 + 1) + 5) = some z := by
  obtain ⟨vertices, e, _, _, _, hcentre, hfan⟩ := C18_circle_is_gap_free_fan sampleCMath
  exact ⟨by decide, by decide, vertices, e, (hcentre 0 (by decide) (by decide)).1,
    hfan 0 (by decide) (by decide)⟩

end CircleClaims

/-- C17, evaluated on the code. The render loop passes `segments * 9 = 900` as
the vertex count of `glDrawArrays`, while the store uploaded by `setupGeometry`
holds `segments * 9` floats read three per vertex, that is 300 vertices: the
count exceeds the vertices held, vertex 299 is the last one in the store and
vertex 300, which the draw call reads, lies past its end. -/
theorem C17_draw_count_exceeds_store :
    drawFirst = 0 ∧ drawCount = 900 ∧ bufferVertexCount = 300
    ∧ ¬ (drawFirst + drawCount ≤ bufferVertexCount)
    ∧ vertexInStore 299 = true ∧ vertexInStore 300 = false
    ∧ 300 < drawFirst + drawCount := by
  decide

end Lista1Exercicio6

/-! # The claims about the house -/

namespace Lista1Exercicio9

/-- The handles after `setupGeometry`, from the initial globals: each global
holds the name returned by the call of `glGenVertexArrays` in its `makeVAO`. -/
theorem setupGeometry_globals (src : NameSource) :
    (setupGeometry src Globals.initial Context.initial).1 =
      { vaoRoofBorder := src.vaoName 0, vaoRoofFill := src.vaoName 1,
        vaoRoofBase := src.vaoName 2, vaoWallLeft := src.vaoName 3,
        vaoWallRight := src.vaoName 4, vaoWindowFill := src.vaoName 5,
        vaoWindowBorder := src.vaoName 6, vaoWinCrossV := src.vaoName 7,
        vaoWinCrossH := src.vaoName 8, vaoDoorFrame := src.vaoName 9,
        vaoDoorFill := src.vaoName 10, vaoGround := src.vaoName 11 } := rfl

/-- C15, evaluated on the code. On the normal exit path `main` returns 0 and
passes to `glDeleteVertexArrays` every handle created by `setupGeometry` except
`vaoRoofBase`: that handle is created by the third `makeVAO` call, it is
distinct from the other eleven (the library hands out distinct names), and no
call `glDeleteVertexArrays(vaoRoofBase)` is issued before `main` returns. -/
theorem C15_vaoRoofBase_not_released (src : NameSource)
    (hdistinct : Function.Injective src.vaoName) :
    (mainHandles src).2.2 = 0
    ∧ (mainHandles src).1.vaoRoofBase ∈ createdVAOs (mainHandles src).1
    ∧ GLCall.glGenVertexArrays (mainHandles src).1.vaoRoofBase ∈ (mainHandles src).2.1
    ∧ GLCall.glDeleteVertexArrays (mainHandles src).1.vaoRoofBase ∉ (mainHandles src).2.1
    ∧ ∀ v ∈ createdVAOs (mainHandles src).1, v ≠ (mainHandles src).1.vaoRoofBase →
        GLCall.glDeleteVertexArrays v ∈ (mainHandles src).2.1 := by
  refine ⟨rfl, ?_, ?_, ?_, ?_⟩
  · simp [createdVAOs]
  · simp [mainHandles, setupGeometry, makeVAO, exitPath, Context.initial, Globals.initial]
  · simp [mainHandles, setupGeometry, makeVAO, exitPath, Context.initial, Globals.initial,
      hdistinct.eq_iff]
  · intro v hv hne
    simp only [createdVAOs, List.mem_cons, List.mem_singleton, List.not_mem_nil, or_false]
      at hv
    rcases hv with h | h | h | h | h | h | h | h | h | h | h | h <;>
      first
      | exact absurd h hne
      | (subst h
         simp [mainHandles, setupGeometry, makeVAO, exitPath, Context.initial,
           Globals.initial])

/-- Witness of C15's evaluation with object names numbered 1, 2, 3, ...:
`vaoRoofBase` is 3 and `glDeleteVertexArrays(3)` is never called. -/
theorem C15_vaoRoofBase_not_released_witness :
    Function.Injective sequentialNames.vaoName
    ∧ (mainHandles sequentialNames).1.vaoRoofBase = 3
    ∧ GLCall.glDeleteVertexArrays 3 ∉ (mainHandles sequentialNames).2.1 :=
  ⟨fun _ _ h => Nat.succ.inj h, rfl,
    (C15_vaoRoofBase_not_released sequentialNames (fun _ _ h => Nat.succ.inj h)).2.2.2.1⟩

end Lista1Exercicio9
